import Mathlib

/-!
The simulation driver `cpu_vsim` of the Ben Eater SAP-1 CPU design

A shallow embedding of `vsim/cpu_vsim.cpp`.  The driver owns the clock, the
reset line, the `done` flag and the two text sinks; the Verilated model
(`Vcpu_main`) is a parameter.  Every externally visible call (`eval`, `dump`,
`fputs`, `final`, `close`) is appended to a chronological trace, so that
statements about "how many times" and "in which order" are statements about
that list.

* `main_time` is a 64-bit unsigned counter (increments wrap at 2^64), `cycle`
  an `int` (the cast wraps at 2^32).
* SIGINT may be delivered before the loop (`pre`) and at any of the fifteen
  points of any iteration (`sig i p`); the handler is `ctrl_c`.
* The loop carries a fuel argument; the theorems show that fuel 12000 is
  always enough.
* `VM_TRACE` is defined as 1 in the source, so the waveform calls are always
  compiled in.
-/

namespace CpuVsim

/-! ## Constants of the source -/

/-- The constant `#define MAX_SIM_CYCLES 12000`. -/
def MAX_SIM_CYCLES : Nat := 12000

/-- The constant `#define LOGDIR "logs/"`. -/
def LOGDIR : String := "logs/"

/-- Text sinks: `stdout` and the `logfile` handle. -/
inductive Sink where
  | stdout
  | logfile
  deriving DecidableEq, Repr

/-- The three ways in which the driver writes text. -/
inductive Writer where
  | printf
  | log_printf
  | logonly_printf
  deriving DecidableEq, Repr

/-- One variadic argument of a `printf`-family call. -/
inductive Arg where
  | int (i : Int)
  | str (s : String)
  deriving DecidableEq, Repr

/-- Externally visible calls made by the driver, in program order.
`fputs sink via fmt args` stands for a write of the rendering of `fmt` with
`args` to `sink`; `via` names the function that made the write (`log_printf`
and `logonly_printf` go through `log_buff`, plain `printf` does not). -/
inductive Event where
  | fputs (sink : Sink) (via : Writer) (fmt : String) (args : List Arg)
  | traceOpen (path : String)
  | eval (clk reset_i clk_en_i : Nat) (time : Nat)
  | dump (t : Nat)
  | final
  | close
  deriving DecidableEq, Repr

/-! ## Rendering of the format strings used by the driver -/

/-- Left-pad a rendered field with `c` up to width `w` (no truncation). -/
def padLeft (c : Char) (w : Nat) (xs : List Char) : List Char :=
  List.replicate (w - xs.length) c ++ xs

/-- Decimal rendering of a signed integer, as `%d` does. -/
def decimal (i : Int) : List Char :=
  if i < 0 then '-' :: Nat.toDigits 10 i.natAbs else Nat.toDigits 10 i.toNat

/-- Lower-case hexadecimal rendering of an `int` reinterpreted as `unsigned`,
as `%x` does. -/
def hex (i : Int) : List Char :=
  Nat.toDigits 16 (i % 4294967296).toNat

/-- Rendering of `%lu` (64-bit unsigned). -/
def udecimal (i : Int) : List Char :=
  Nat.toDigits 10 (i % 18446744073709551616).toNat

/-- The conversion specifications that occur in the driver: `%5d`, `%02x`,
`%d`, `%lu` and `%s`; every other character is copied. -/
def vformat : List Char → List Arg → List Char
  | [], _ => []
  | '%' :: '5' :: 'd' :: rest, Arg.int i :: as =>
      padLeft ' ' 5 (decimal i) ++ vformat rest as
  | '%' :: '0' :: '2' :: 'x' :: rest, Arg.int i :: as =>
      padLeft '0' 2 (hex i) ++ vformat rest as
  | '%' :: 'd' :: rest, Arg.int i :: as =>
      decimal i ++ vformat rest as
  | '%' :: 'l' :: 'u' :: rest, Arg.int i :: as =>
      udecimal i ++ vformat rest as
  | '%' :: 's' :: rest, Arg.str s :: as =>
      s.toList ++ vformat rest as
  | c :: rest, as => c :: vformat rest as

/-- The text produced by `vsnprintf(log_buff, sizeof(log_buff), fmt, args)`
with `log_buff` of 16384 bytes (at most 16383 characters are kept). -/
def vsnprintf (fmt : String) (args : List Arg) : String :=
  String.mk ((vformat fmt.toList args).take 16383)

/-- The text produced by plain `printf(fmt, args)`. -/
def sprintf (fmt : String) (args : List Arg) : String :=
  String.mk (vformat fmt.toList args)

/-- The format of the first banner, `log_printf("\nSimulation started\n")`. -/
def STARTED_FMT : String := "\nSimulation started\n"

/-- The format of the file-only announcement of the waveform path. -/
def FST_FMT : String := "Writing FST waveform file to \"%s\"...\n"

/-- The format of the reset line. -/
def RESET_FMT : String := "%5d: <reset>\n"

/-- The format of the halt line. -/
def HLT_FMT : String := "%5d: === HLT: CPU halted.\n"

/-- The format of the output-strobe line. -/
def OUT_FMT : String := "%5d: === OUT: 0x%02x (%d)\n"

/-- The format of the cutoff line. -/
def CUTOFF_FMT : String := "Maximum simulation time, quitting.\n"

/-- The format of the closing banner. -/
def ENDED_FMT : String := "Simulation ended after %lu clock ticks\n"

/-- The message printed when the log file cannot be created. -/
def CANT_CREATE_FMT : String := "can't create logs/cpu_vsim.log\n"

/-- The text an event puts on its sink (empty for events that write no text). -/
def Event.text : Event → String
  | Event.fputs _ Writer.printf fmt args => sprintf fmt args
  | Event.fputs _ _ fmt args => vsnprintf fmt args
  | _ => ""

/-! ## The device under test -/

/-- Modelled from the spec: the Verilator-generated class of `Vcpu_main.h`,
which is not part of the driver.  The model has an internal state `σ`;
`eval` settles it from the three driven inputs (`clk`, `reset_i`, `clk_en_i`)
and may query the simulation time (`sc_time_stamp`, the last argument);
`halt_o`, `out_strobe_o` and `out_value_o` are the observed output ports (the
last one an 8-bit unsigned quantity, read modulo 256); `gotFinish` tells
whether the model has executed `$finish` (`Verilated::gotFinish()`); `final`
runs the model's final blocks.  The inputs are written by the driver only. -/
structure Vcpu_main (σ : Type) where
  eval : σ → Nat → Nat → Nat → Nat → σ
  halt_o : σ → Nat
  out_strobe_o : σ → Nat
  out_value_o : σ → Nat
  gotFinish : σ → Bool
  final : σ → σ

/-! ## The state of the driver -/

/-- The variables of `main` together with the globals `main_time` and `done`,
the model state and the trace of external calls made so far. -/
structure Sim (σ : Type) where
  top : σ
  reset_i : Nat
  clk_en_i : Nat
  clk : Nat
  main_time : Nat
  cycle : Int
  done : Bool
  trace : List Event

variable {σ : Type}

/-- Conversion `(int)x` of a 64-bit unsigned value (two's complement wrap). -/
def toInt32 (n : Nat) : Int :=
  if n % 4294967296 < 2147483648 then (n % 4294967296 : Nat)
  else ((n % 4294967296 : Nat) : Int) - 4294967296

/-- Increment of a `vluint64_t`. -/
def incr64 (n : Nat) : Nat := (n + 1) % 18446744073709551616

/-- The handler `ctrl_c`: it sets `done` and nothing else. -/
def ctrl_c (s : Sim σ) : Sim σ := { s with done := true }

/-- The function `sc_time_stamp`: the value of `main_time` (its conversion to
`double` is exact below 2^53). -/
def sc_time_stamp (s : Sim σ) : Nat := s.main_time

/-- Plain `printf(fmt, args)`: one write, to `stdout` only. -/
def printf (fmt : String) (args : List Arg) (s : Sim σ) : Sim σ :=
  { s with trace := s.trace ++ [Event.fputs Sink.stdout Writer.printf fmt args] }

/-- The function `log_printf`: the rendered buffer goes to `stdout`, then to
`logfile`. -/
def log_printf (fmt : String) (args : List Arg) (s : Sim σ) : Sim σ :=
  { s with trace := s.trace ++
      [Event.fputs Sink.stdout Writer.log_printf fmt args,
       Event.fputs Sink.logfile Writer.log_printf fmt args] }

/-- The function `logonly_printf`: the rendered buffer goes to `logfile`. -/
def logonly_printf (fmt : String) (args : List Arg) (s : Sim σ) : Sim σ :=
  { s with trace := s.trace ++ [Event.fputs Sink.logfile Writer.logonly_printf fmt args] }

/-- The call `top->eval()`: the model settles from the current inputs; a
`$time` query inside it is answered by `sc_time_stamp`. -/
def top_eval (D : Vcpu_main σ) (s : Sim σ) : Sim σ :=
  { s with
    top := D.eval s.top s.clk s.reset_i s.clk_en_i (sc_time_stamp s)
    trace := s.trace ++ [Event.eval s.clk s.reset_i s.clk_en_i (sc_time_stamp s)] }

/-- The call `tfp->dump(main_time)`. -/
def tfp_dump (s : Sim σ) : Sim σ :=
  { s with trace := s.trace ++ [Event.dump s.main_time] }

/-! ## The statements of the loop body, lines 108-155 -/

/-- Line 108, `top->clk = 1`. -/
def clk_rising (s : Sim σ) : Sim σ := { s with clk := 1 }

/-- Lines 114 and 128, `main_time++`. -/
def tick (s : Sim σ) : Sim σ := { s with main_time := incr64 s.main_time }

/-- Line 116, `top->clk = 0`. -/
def clk_falling (s : Sim σ) : Sim σ := { s with clk := 0 }

/-- Lines 123-126, the reset line. -/
def reset_line (s : Sim σ) : Sim σ :=
  if s.reset_i ≠ 0 then printf RESET_FMT [Arg.int s.cycle] s else s

/-- Line 130, `cycle = (int)(main_time / 2)`. -/
def set_cycle (s : Sim σ) : Sim σ := { s with cycle := toInt32 (s.main_time / 2) }

/-- Lines 132-137, the halt check. -/
def halt_check (D : Vcpu_main σ) (s : Sim σ) : Sim σ :=
  if D.halt_o s.top ≠ 0 then
    { printf HLT_FMT [Arg.int s.cycle] s with done := true }
  else s

/-- Lines 139-142, the output-strobe check; `out_value_o` is promoted from an
8-bit unsigned value. -/
def strobe_check (D : Vcpu_main σ) (s : Sim σ) : Sim σ :=
  if D.out_strobe_o s.top ≠ 0 then
    printf OUT_FMT [Arg.int s.cycle, Arg.int ((D.out_value_o s.top % 256 : Nat) : Int),
      Arg.int ((D.out_value_o s.top % 256 : Nat) : Int)] s
  else s

/-- Lines 144-150, the failsafe exit. -/
def failsafe (s : Sim σ) : Sim σ :=
  if s.main_time / 2 ≥ MAX_SIM_CYCLES then
    { printf CUTOFF_FMT [] s with done := true }
  else s

/-- Lines 152-155, deassertion of reset. -/
def reset_release (s : Sim σ) : Sim σ :=
  if s.main_time ≥ 2 then { s with reset_i := 0 } else s

/-- The fourteen statements of the loop body in program order. -/
def bodyStmts (D : Vcpu_main σ) : List (Sim σ → Sim σ) :=
  [clk_rising, top_eval D, tfp_dump, tick,
   clk_falling, top_eval D, tfp_dump, reset_line, tick, set_cycle,
   halt_check D, strobe_check D, failsafe, reset_release]

/-- Execution of a statement list under asynchronous interruption: `irq p`
tells whether SIGINT is delivered at point `p`, that is, right before the
statement of index `p`; the handler then runs before that statement.  A
delivery in the middle of a statement has the effect of a delivery right
before or right after it, because the handler writes `done` only and no
statement of the body reads `done`. -/
def runStmts (irq : Nat → Bool) : Nat → List (Sim σ → Sim σ) → Sim σ → Sim σ
  | _, [], s => s
  | p, f :: fs, s => runStmts irq (p + 1) fs (f (if irq p then ctrl_c s else s))

/-- One iteration of the loop body.  Points 0 to 13 precede the fourteen
statements; point 14 lies between the last statement and the next test of
the loop condition. -/
def body (D : Vcpu_main σ) (irq : Nat → Bool) (s : Sim σ) : Sim σ :=
  let s1 := runStmts irq 0 (bodyStmts D) s
  if irq 14 then ctrl_c s1 else s1

/-- The loop condition `!done && !Verilated::gotFinish()`. -/
def loopCond (D : Vcpu_main σ) (s : Sim σ) : Bool :=
  !s.done && !D.gotFinish s.top

/-- The `while` loop of lines 106-156.  `sig i p` tells whether SIGINT arrives
at point `p` of iteration `i` (counted from 0); `fuel` bounds the number of
iterations, and `none` means the bound was too small. -/
def simLoop (D : Vcpu_main σ) (sig : Nat → Nat → Bool) :
    Nat → Nat → Sim σ → Option (Sim σ)
  | fuel, i, s =>
    if loopCond D s then
      match fuel with
      | 0 => none
      | fuel + 1 => simLoop D sig fuel (i + 1) (body D (sig i) s)
    else some s

/-- Lines 81-104: the state in which the loop is entered for the first time
(`done` is a zero-initialised global). -/
def startup (init : σ) : Sim σ :=
  let s : Sim σ :=
    { top := init, reset_i := 0, clk_en_i := 0, clk := 0, main_time := 0,
      cycle := 0, done := false, trace := [] }
  let s := log_printf STARTED_FMT [] s
  let s := logonly_printf FST_FMT [Arg.str (LOGDIR ++ "cpu_vsim.fst")] s
  let s := { s with trace := s.trace ++ [Event.traceOpen (LOGDIR ++ "cpu_vsim.fst")] }
  { s with reset_i := 1, clk_en_i := 1, clk := 0, cycle := 0 }

/-- Lines 158-165: `top->final()`, `tfp->close()` and the closing banner. -/
def shutdown (D : Vcpu_main σ) (s : Sim σ) : Sim σ :=
  let s := { s with top := D.final s.top, trace := s.trace ++ [Event.final] }
  let s := { s with trace := s.trace ++ [Event.close] }
  log_printf ENDED_FMT [Arg.int ((s.main_time / 2 : Nat) : Int)] s

/-- The state in which the loop is first tested: `pre` tells whether SIGINT
was delivered between the installation of the handler and that test. -/
def entry (init : σ) (pre : Bool) : Sim σ :=
  if pre then ctrl_c (startup init) else startup init

/-- The program `main` once the log file is open: start-up, the loop, the
shutdown.  The exit status of this path is `EXIT_SUCCESS`. -/
def simulate (D : Vcpu_main σ) (init : σ) (pre : Bool) (sig : Nat → Nat → Bool)
    (fuel : Nat) : Option (Sim σ) :=
  match simLoop D sig fuel 0 (entry init pre) with
  | none => none
  | some s => some (shutdown D s)

/-- The function `main`: `fopenOk` tells whether `logs/cpu_vsim.log` could be
created.  The result is the exit status and the final state; when the file
cannot be created the program prints one message and exits with status 1
before the model exists. -/
def main (D : Vcpu_main σ) (init : σ) (fopenOk : Bool) (pre : Bool)
    (sig : Nat → Nat → Bool) (fuel : Nat) : Option (Nat × List Event) :=
  if fopenOk then
    match simulate D init pre sig fuel with
    | none => none
    | some s => some (0, s.trace)
  else some (1, [Event.fputs Sink.stdout Writer.printf CANT_CREATE_FMT []])

/-! ## Observations on a trace -/

/-- The lines that reached the console, in order. -/
def consoleLines (tr : List Event) : List String :=
  tr.filterMap fun e =>
    match e with
    | Event.fputs Sink.stdout w fmt args => some (Event.text (Event.fputs Sink.stdout w fmt args))
    | _ => none

/-- The lines that reached the log file, in order. -/
def fileLines (tr : List Event) : List String :=
  tr.filterMap fun e =>
    match e with
    | Event.fputs Sink.logfile w fmt args =>
        some (Event.text (Event.fputs Sink.logfile w fmt args))
    | _ => none

/-- Whether an event is a console write with the given format. -/
def isLine (fmt : String) : Event → Bool
  | Event.fputs Sink.stdout _ f _ => f == fmt
  | _ => false

/-- Whether an event is a call of `top->eval()`. -/
def isEval : Event → Bool
  | Event.eval _ _ _ _ => true
  | _ => false

/-- Whether an event is a call of `tfp->dump`. -/
def isDump : Event → Bool
  | Event.dump _ => true
  | _ => false

/-- The calls that reach the model or the waveform stream. -/
def isHw (e : Event) : Bool := isEval e || isDump e

/-- The state after `n` executions of the loop body, the loop condition not
being consulted. -/
def iterBody (D : Vcpu_main σ) (sig : Nat → Nat → Bool) : Nat → Sim σ → Sim σ
  | 0, s => s
  | n + 1, s => body D (sig n) (iterBody D sig n s)

/-- The schedule without any SIGINT. -/
def noSig : Nat → Nat → Bool := fun _ _ => false

/-- The loop body without interruption: the fourteen statements in order. -/
def body0 (D : Vcpu_main σ) (s : Sim σ) : Sim σ :=
  (bodyStmts D).foldl (fun acc f => f acc) s

/-- Whether SIGINT is delivered at one of the fifteen points of an iteration. -/
def anyIrq (irq : Nat → Bool) : Bool := (List.range 15).any irq

/-- A statement commutes with the handler: it neither reads `done` nor
clears it. -/
def Commutes (f : Sim σ → Sim σ) : Prop := ∀ s, f (ctrl_c s) = ctrl_c (f s)

/-- The model state after the rising-edge `eval` of an iteration from `s`. -/
def top1 (D : Vcpu_main σ) (s : Sim σ) : σ :=
  D.eval s.top 1 s.reset_i s.clk_en_i s.main_time

/-- The model state after the falling-edge `eval` of an iteration from `s`. -/
def top2 (D : Vcpu_main σ) (s : Sim σ) : σ :=
  D.eval (top1 D s) 0 s.reset_i s.clk_en_i (incr64 s.main_time)

/-- The value of `main_time` after an iteration from `s`. -/
def time2 (s : Sim σ) : Nat := incr64 (incr64 s.main_time)

/-- The two `eval` calls and the two `dump` calls of an iteration from `s`. -/
def hwPart (s : Sim σ) : List Event :=
  [Event.eval 1 s.reset_i s.clk_en_i s.main_time, Event.dump s.main_time,
   Event.eval 0 s.reset_i s.clk_en_i (incr64 s.main_time), Event.dump (incr64 s.main_time)]

/-- The reset line of an iteration from `s`, if any. -/
def resetPart (s : Sim σ) : List Event :=
  if s.reset_i ≠ 0 then [Event.fputs Sink.stdout Writer.printf RESET_FMT [Arg.int s.cycle]] else []

/-- The halt line of an iteration from `s`, if any. -/
def haltPart (D : Vcpu_main σ) (s : Sim σ) : List Event :=
  if D.halt_o (top2 D s) ≠ 0 then
    [Event.fputs Sink.stdout Writer.printf HLT_FMT [Arg.int (toInt32 (time2 s / 2))]]
  else []

/-- The output line of an iteration from `s`, if any. -/
def strobePart (D : Vcpu_main σ) (s : Sim σ) : List Event :=
  if D.out_strobe_o (top2 D s) ≠ 0 then
    [Event.fputs Sink.stdout Writer.printf OUT_FMT
      [Arg.int (toInt32 (time2 s / 2)),
       Arg.int ((D.out_value_o (top2 D s) % 256 : Nat) : Int),
       Arg.int ((D.out_value_o (top2 D s) % 256 : Nat) : Int)]]
  else []

/-- The cutoff line of an iteration from `s`, if any. -/
def cutoffPart (s : Sim σ) : List Event :=
  if time2 s / 2 ≥ MAX_SIM_CYCLES then [Event.fputs Sink.stdout Writer.printf CUTOFF_FMT []] else []

/-- The file lines written by `log_printf`, that is, the file lines that
remain once those written by `logonly_printf` are removed. -/
def sharedFileLines (tr : List Event) : List String :=
  tr.filterMap fun e =>
    match e with
    | Event.fputs Sink.logfile Writer.log_printf fmt args =>
        some (Event.text (Event.fputs Sink.logfile Writer.log_printf fmt args))
    | _ => none

/-- The reset inputs seen by the successive `eval` calls. -/
def evalResets (tr : List Event) : List Nat :=
  tr.filterMap fun e =>
    match e with
    | Event.eval _ r _ _ => some r
    | _ => none

/-- The timestamps of the successive `dump` calls. -/
def dumpTimes (tr : List Event) : List Nat :=
  tr.filterMap fun e =>
    match e with
    | Event.dump t => some t
    | _ => none

/-- The event lines of an iteration from `s`: reset, halt, output, cutoff. -/
def cycleLines (D : Vcpu_main σ) (s : Sim σ) : List Event :=
  resetPart s ++ haltPart D s ++ strobePart D s ++ cutoffPart s

/-! ## Concrete models used as test inputs -/

/-- A model that never asserts any output and never executes `$finish`. -/
def idleDUT : Vcpu_main Unit :=
  { eval := fun _ _ _ _ _ => ()
    halt_o := fun _ => 0
    out_strobe_o := fun _ => 0
    out_value_o := fun _ => 0
    gotFinish := fun _ => false
    final := fun _ => () }

/-- A model whose state counts its `eval` calls and which asserts `halt_o`
once it has been evaluated `2 * k` times, that is, at the halt check of
cycle `k`. -/
def haltAt (k : Nat) : Vcpu_main Nat :=
  { eval := fun st _ _ _ _ => st + 1
    halt_o := fun st => if st = 2 * k then 1 else 0
    out_strobe_o := fun _ => 0
    out_value_o := fun _ => 0
    gotFinish := fun _ => false
    final := fun st => st }

/-- A model that strobes the value `0x2A` at the check of cycle 7 and halts at
the check of cycle 8. -/
def strobeAt7 : Vcpu_main Nat :=
  { eval := fun st _ _ _ _ => st + 1
    halt_o := fun st => if st = 16 then 1 else 0
    out_strobe_o := fun st => if st = 14 then 1 else 0
    out_value_o := fun _ => 42
    gotFinish := fun _ => false
    final := fun st => st }

/-! ## Basic facts about the handler and the statements -/

@[simp] theorem ctrl_c_done (s : Sim σ) : (ctrl_c s).done = true := rfl
@[simp] theorem ctrl_c_top (s : Sim σ) : (ctrl_c s).top = s.top := rfl
@[simp] theorem ctrl_c_reset_i (s : Sim σ) : (ctrl_c s).reset_i = s.reset_i := rfl
@[simp] theorem ctrl_c_clk_en_i (s : Sim σ) : (ctrl_c s).clk_en_i = s.clk_en_i := rfl
@[simp] theorem ctrl_c_clk (s : Sim σ) : (ctrl_c s).clk = s.clk := rfl
@[simp] theorem ctrl_c_main_time (s : Sim σ) : (ctrl_c s).main_time = s.main_time := rfl
@[simp] theorem ctrl_c_cycle (s : Sim σ) : (ctrl_c s).cycle = s.cycle := rfl
@[simp] theorem ctrl_c_trace (s : Sim σ) : (ctrl_c s).trace = s.trace := rfl
@[simp] theorem ctrl_c_idem (s : Sim σ) : ctrl_c (ctrl_c s) = ctrl_c s := rfl

theorem bodyStmts_commute (D : Vcpu_main σ) : ∀ f ∈ bodyStmts D, Commutes f := by
  intro f hf
  simp only [bodyStmts, List.mem_cons, List.mem_singleton, List.not_mem_nil, or_false] at hf
  rcases hf with h | h | h | h | h | h | h | h | h | h | h | h | h | h <;> subst h <;> intro s
  · rfl
  · rfl
  · rfl
  · rfl
  · rfl
  · rfl
  · rfl
  · simp only [reset_line, ctrl_c_reset_i]; split <;> rfl
  · rfl
  · rfl
  · simp only [halt_check, ctrl_c_top]; split <;> rfl
  · simp only [strobe_check, ctrl_c_top]; split <;> rfl
  · simp only [failsafe, ctrl_c_main_time]; split <;> rfl
  · simp only [reset_release, ctrl_c_main_time]; split <;> rfl

theorem foldl_ctrl_c (fs : List (Sim σ → Sim σ)) (h : ∀ f ∈ fs, Commutes f) (s : Sim σ) :
    fs.foldl (fun acc f => f acc) (ctrl_c s) = ctrl_c (fs.foldl (fun acc f => f acc) s) := by
  induction fs generalizing s with
  | nil => rfl
  | cons f fs ih =>
    simp only [List.foldl_cons]
    rw [h f (List.mem_cons_self _ _), ih (fun g hg => h g (List.mem_cons_of_mem _ hg))]

theorem runStmts_eq (irq : Nat → Bool) (fs : List (Sim σ → Sim σ))
    (h : ∀ f ∈ fs, Commutes f) (p : Nat) (s : Sim σ) :
    runStmts irq p fs s =
      if (List.range fs.length).any (fun q => irq (p + q))
      then ctrl_c (fs.foldl (fun acc f => f acc) s)
      else fs.foldl (fun acc f => f acc) s := by
  induction fs generalizing p s with
  | nil => simp [runStmts]
  | cons f fs ih =>
    have hfs : ∀ g ∈ fs, Commutes g := fun g hg => h g (List.mem_cons_of_mem _ hg)
    have hf : Commutes f := h f (List.mem_cons_self _ _)
    simp only [runStmts, List.foldl_cons, List.length_cons]
    rw [ih hfs, List.range_succ_eq_map, List.any_cons, List.any_map]
    have hfun : ((fun q => irq (p + q)) ∘ Nat.succ) = fun q => irq (p + 1 + q) := by
      funext q; simp [Nat.succ_eq_add_one]; congr 1; omega
    rw [hfun]
    by_cases hp : irq p = true
    · simp only [hp, if_true, Nat.add_zero, Bool.true_or]
      rw [hf s, foldl_ctrl_c fs hfs]
      split <;> simp
    · simp only [hp, Nat.add_zero, Bool.false_or]
      simp

theorem body_eq (D : Vcpu_main σ) (irq : Nat → Bool) (s : Sim σ) :
    body D irq s = if anyIrq irq then ctrl_c (body0 D s) else body0 D s := by
  unfold body
  simp only [runStmts_eq irq (bodyStmts D) (bodyStmts_commute D) 0 s]
  have hlen : (bodyStmts D).length = 14 := rfl
  rw [hlen]
  unfold anyIrq body0
  rw [List.range_succ (n := 14), List.any_append]
  simp only [Nat.zero_add, List.any_cons, List.any_nil, Bool.or_false]
  by_cases h1 : (List.range 14).any irq = true <;> by_cases h2 : irq 14 = true <;> simp [h1, h2]

/-! ## What one uninterrupted iteration does -/

theorem reset_line_eq (s : Sim σ) :
    reset_line s = { s with trace := s.trace ++
      (if s.reset_i ≠ 0 then [Event.fputs Sink.stdout Writer.printf RESET_FMT [Arg.int s.cycle]]
       else []) } := by
  unfold reset_line printf
  split <;> simp

theorem halt_check_eq (D : Vcpu_main σ) (s : Sim σ) :
    halt_check D s = { s with
      done := s.done || decide (D.halt_o s.top ≠ 0)
      trace := s.trace ++
        (if D.halt_o s.top ≠ 0 then [Event.fputs Sink.stdout Writer.printf HLT_FMT [Arg.int s.cycle]]
         else []) } := by
  unfold halt_check printf
  split <;> simp_all

theorem strobe_check_eq (D : Vcpu_main σ) (s : Sim σ) :
    strobe_check D s = { s with trace := s.trace ++
      (if D.out_strobe_o s.top ≠ 0 then
        [Event.fputs Sink.stdout Writer.printf OUT_FMT
          [Arg.int s.cycle, Arg.int ((D.out_value_o s.top % 256 : Nat) : Int),
           Arg.int ((D.out_value_o s.top % 256 : Nat) : Int)]]
       else []) } := by
  unfold strobe_check printf
  split <;> simp

theorem failsafe_eq (s : Sim σ) :
    failsafe s = { s with
      done := s.done || decide (s.main_time / 2 ≥ MAX_SIM_CYCLES)
      trace := s.trace ++
        (if s.main_time / 2 ≥ MAX_SIM_CYCLES then [Event.fputs Sink.stdout Writer.printf CUTOFF_FMT []]
         else []) } := by
  unfold failsafe printf
  split
  · simp_all
  · rename_i h
    have h2 : decide (s.main_time / 2 ≥ MAX_SIM_CYCLES) = false := by simpa using h
    cases s
    simp_all

theorem reset_release_eq (s : Sim σ) :
    reset_release s = { s with reset_i := if s.main_time ≥ 2 then 0 else s.reset_i } := by
  unfold reset_release
  split <;> simp_all

theorem body0_explicit (D : Vcpu_main σ) (s : Sim σ) :
    body0 D s =
      { top := top2 D s
        reset_i := if time2 s ≥ 2 then 0 else s.reset_i
        clk_en_i := s.clk_en_i
        clk := 0
        main_time := time2 s
        cycle := toInt32 (time2 s / 2)
        done := (s.done || decide (D.halt_o (top2 D s) ≠ 0)
                  || decide (time2 s / 2 ≥ MAX_SIM_CYCLES))
        trace := s.trace ++
          (hwPart s ++ resetPart s ++ haltPart D s ++ strobePart D s ++ cutoffPart s) } := by
  simp only [body0, bodyStmts, List.foldl_cons, List.foldl_nil, reset_release_eq, failsafe_eq,
    strobe_check_eq, halt_check_eq, set_cycle, tick, reset_line_eq, tfp_dump, top_eval,
    clk_falling, clk_rising, sc_time_stamp, time2, top2, top1, hwPart, resetPart, haltPart,
    strobePart, cutoffPart, List.append_assoc, List.singleton_append, List.cons_append,
    List.nil_append]

theorem body0_top (D : Vcpu_main σ) (s : Sim σ) : (body0 D s).top = top2 D s := by
  rw [body0_explicit]

theorem body0_main_time (D : Vcpu_main σ) (s : Sim σ) : (body0 D s).main_time = time2 s := by
  rw [body0_explicit]

theorem body0_cycle (D : Vcpu_main σ) (s : Sim σ) :
    (body0 D s).cycle = toInt32 (time2 s / 2) := by
  rw [body0_explicit]

theorem body0_clk_en_i (D : Vcpu_main σ) (s : Sim σ) : (body0 D s).clk_en_i = s.clk_en_i := by
  rw [body0_explicit]

theorem body0_reset_i (D : Vcpu_main σ) (s : Sim σ) :
    (body0 D s).reset_i = if time2 s ≥ 2 then 0 else s.reset_i := by
  rw [body0_explicit]

theorem body0_done (D : Vcpu_main σ) (s : Sim σ) :
    (body0 D s).done =
      (s.done || decide (D.halt_o (top2 D s) ≠ 0) || decide (time2 s / 2 ≥ MAX_SIM_CYCLES)) := by
  rw [body0_explicit]

theorem body0_trace (D : Vcpu_main σ) (s : Sim σ) :
    (body0 D s).trace =
      s.trace ++ (hwPart s ++ resetPart s ++ haltPart D s ++ strobePart D s ++ cutoffPart s) := by
  rw [body0_explicit]

/-! ## One iteration under interruption -/

theorem body_top (D : Vcpu_main σ) (irq : Nat → Bool) (s : Sim σ) :
    (body D irq s).top = top2 D s := by
  rw [body_eq]; split <;> simp [body0_top]

theorem body_main_time (D : Vcpu_main σ) (irq : Nat → Bool) (s : Sim σ) :
    (body D irq s).main_time = time2 s := by
  rw [body_eq]; split <;> simp [body0_main_time]

theorem body_cycle (D : Vcpu_main σ) (irq : Nat → Bool) (s : Sim σ) :
    (body D irq s).cycle = toInt32 (time2 s / 2) := by
  rw [body_eq]; split <;> simp [body0_cycle]

theorem body_clk_en_i (D : Vcpu_main σ) (irq : Nat → Bool) (s : Sim σ) :
    (body D irq s).clk_en_i = s.clk_en_i := by
  rw [body_eq]; split <;> simp [body0_clk_en_i]

theorem body_reset_i (D : Vcpu_main σ) (irq : Nat → Bool) (s : Sim σ) :
    (body D irq s).reset_i = if time2 s ≥ 2 then 0 else s.reset_i := by
  rw [body_eq]; split <;> simp [body0_reset_i]

theorem body_trace (D : Vcpu_main σ) (irq : Nat → Bool) (s : Sim σ) :
    (body D irq s).trace =
      s.trace ++ (hwPart s ++ resetPart s ++ haltPart D s ++ strobePart D s ++ cutoffPart s) := by
  rw [body_eq]; split <;> simp [body0_trace]

theorem body_done (D : Vcpu_main σ) (irq : Nat → Bool) (s : Sim σ) :
    (body D irq s).done =
      (anyIrq irq || s.done || decide (D.halt_o (top2 D s) ≠ 0)
        || decide (time2 s / 2 ≥ MAX_SIM_CYCLES)) := by
  rw [body_eq]; split <;> rename_i h <;> simp [body0_done, h]

/-! ## The run: start-up and iteration -/

theorem entry_fields (init : σ) (pre : Bool) :
    (entry init pre).top = init ∧ (entry init pre).reset_i = 1 ∧
    (entry init pre).clk_en_i = 1 ∧ (entry init pre).main_time = 0 ∧
    (entry init pre).cycle = 0 ∧ (entry init pre).done = pre ∧
    (entry init pre).trace = (startup init).trace := by
  cases pre <;> simp [entry, startup, ctrl_c, log_printf, logonly_printf]

theorem startup_trace (init : σ) :
    (startup init).trace =
      [Event.fputs Sink.stdout Writer.log_printf STARTED_FMT [],
       Event.fputs Sink.logfile Writer.log_printf STARTED_FMT [],
       Event.fputs Sink.logfile Writer.logonly_printf FST_FMT
         [Arg.str (LOGDIR ++ "cpu_vsim.fst")],
       Event.traceOpen (LOGDIR ++ "cpu_vsim.fst")] := by
  simp [startup, log_printf, logonly_printf]

theorem time2_of_small (s : Sim σ) (h : s.main_time + 2 < 18446744073709551616) :
    time2 s = s.main_time + 2 := by
  unfold time2 incr64
  omega

theorem toInt32_of_small (n : Nat) (h : n < 2147483648) : toInt32 n = (n : Int) := by
  unfold toInt32
  have h1 : n % 4294967296 = n := Nat.mod_eq_of_lt (by omega)
  rw [h1, if_pos h]

/-- The driver-owned variables after `n` iterations: `main_time = 2n`,
`cycle = n`, clock enable held, reset asserted before the first iteration
only. -/
theorem iter_fields (D : Vcpu_main σ) (sig : Nat → Nat → Bool) (init : σ) (pre : Bool)
    (n : Nat) (hn : n < 2147483648) :
    (iterBody D sig n (entry init pre)).main_time = 2 * n ∧
    (iterBody D sig n (entry init pre)).cycle = (n : Int) ∧
    (iterBody D sig n (entry init pre)).clk_en_i = 1 ∧
    (iterBody D sig n (entry init pre)).reset_i = (if n = 0 then 1 else 0) := by
  induction n with
  | zero =>
    obtain ⟨-, h2, h3, h4, h5, -, -⟩ := entry_fields init pre
    simp [iterBody, h2, h3, h4, h5]
  | succ n ih =>
    obtain ⟨h1, -, h3, h4⟩ := ih (by omega)
    have ht : time2 (iterBody D sig n (entry init pre)) = 2 * n + 2 := by
      rw [time2_of_small _ (by omega), h1]
    simp only [iterBody, body_main_time, body_cycle, body_clk_en_i, body_reset_i, ht, h3]
    refine ⟨by omega, ?_, trivial, ?_⟩
    · rw [toInt32_of_small _ (by omega)]
      have : (2 * n + 2) / 2 = n + 1 := by omega
      rw [this]
    · simp

/-- The trace grows by the calls of one iteration. -/
theorem iter_trace_succ (D : Vcpu_main σ) (sig : Nat → Nat → Bool) (n : Nat) (s : Sim σ) :
    (iterBody D sig (n + 1) s).trace =
      (iterBody D sig n s).trace ++
        (hwPart (iterBody D sig n s) ++ resetPart (iterBody D sig n s) ++
          haltPart D (iterBody D sig n s) ++ strobePart D (iterBody D sig n s) ++
          cutoffPart (iterBody D sig n s)) := by
  simp only [iterBody, body_trace]

/-! ## The loop in terms of iteration -/

theorem simLoop_exit (D : Vcpu_main σ) (sig : Nat → Nat → Bool) (fuel i : Nat) (s : Sim σ)
    (h : loopCond D s = false) : simLoop D sig fuel i s = some s := by
  unfold simLoop
  simp [h]

theorem simLoop_step (D : Vcpu_main σ) (sig : Nat → Nat → Bool) (fuel i : Nat) (s : Sim σ)
    (h : loopCond D s = true) :
    simLoop D sig (fuel + 1) i s = simLoop D sig fuel (i + 1) (body D (sig i) s) := by
  rw [simLoop]
  simp [h]

/-- If the loop condition holds before each of the iterations `i, …, i+m-1`
and fails after the last of them, the loop performs exactly those `m`
iterations, whatever fuel of at least `m` it is given. -/
theorem simLoop_iter (D : Vcpu_main σ) (sig : Nat → Nat → Bool) (s0 : Sim σ) :
    ∀ (m fuel i : Nat),
      (∀ j, i ≤ j → j < i + m → loopCond D (iterBody D sig j s0) = true) →
      loopCond D (iterBody D sig (i + m) s0) = false → m ≤ fuel →
      simLoop D sig fuel i (iterBody D sig i s0) = some (iterBody D sig (i + m) s0) := by
  intro m
  induction m with
  | zero =>
    intro fuel i _ hstop _
    exact simLoop_exit D sig fuel i _ hstop
  | succ m ih =>
    intro fuel i hrun hstop hfuel
    obtain ⟨f, rfl⟩ : ∃ f, fuel = f + 1 := ⟨fuel - 1, by omega⟩
    rw [simLoop_step D sig f i _ (hrun i (le_refl _) (by omega))]
    have := ih f (i + 1) (fun j h1 h2 => hrun j (by omega) (by omega))
      (by rw [show i + 1 + m = i + (m + 1) by omega]; exact hstop) (by omega)
    rw [show i + 1 + m = i + (m + 1) by omega] at this
    exact this

/-- After the 12000th iteration `done` is set, whatever the model does. -/
theorem done_at_cutoff (D : Vcpu_main σ) (sig : Nat → Nat → Bool) (init : σ) (pre : Bool) :
    (iterBody D sig 12000 (entry init pre)).done = true := by
  have h := (iter_fields D sig init pre 11999 (by norm_num)).1
  have ht : time2 (iterBody D sig 11999 (entry init pre)) = 24000 := by
    rw [time2_of_small _ (by omega), h]
  show (body D (sig 11999) (iterBody D sig 11999 (entry init pre))).done = true
  rw [body_done, ht]
  simp [MAX_SIM_CYCLES]

/-- Every run has a number of cycles `n ≤ 12000`: the loop condition holds
before each of the first `n` iterations and fails after the `n`-th. -/
theorem exists_cycles (D : Vcpu_main σ) (sig : Nat → Nat → Bool) (init : σ) (pre : Bool) :
    ∃ n, n ≤ 12000 ∧
      (∀ j, j < n → loopCond D (iterBody D sig j (entry init pre)) = true) ∧
      loopCond D (iterBody D sig n (entry init pre)) = false := by
  have hex : ∃ n, loopCond D (iterBody D sig n (entry init pre)) = false :=
    ⟨12000, by simp [loopCond, done_at_cutoff]⟩
  refine ⟨Nat.find hex, Nat.find_min' hex (by simp [loopCond, done_at_cutoff]), ?_,
    Nat.find_spec hex⟩
  intro j hj
  have := Nat.find_min hex hj
  simpa using this

/-- The loop returns, and returns the state after its `n` cycles. -/
theorem simLoop_of_cycles (D : Vcpu_main σ) (sig : Nat → Nat → Bool) (init : σ) (pre : Bool)
    (n fuel : Nat) (hfuel : n ≤ fuel)
    (hrun : ∀ j, j < n → loopCond D (iterBody D sig j (entry init pre)) = true)
    (hstop : loopCond D (iterBody D sig n (entry init pre)) = false) :
    simLoop D sig fuel 0 (entry init pre) = some (iterBody D sig n (entry init pre)) := by
  have := simLoop_iter D sig (entry init pre) n fuel 0
    (fun j _ h => hrun j (by omega)) (by simpa using hstop) hfuel
  simpa [iterBody] using this

/-! ## The calls of each cycle of a run -/

theorem iter_top_succ (D : Vcpu_main σ) (sig : Nat → Nat → Bool) (i : Nat) (s : Sim σ) :
    (iterBody D sig (i + 1) s).top = top2 D (iterBody D sig i s) := by
  simp only [iterBody, body_top]

theorem iter_time2 (D : Vcpu_main σ) (sig : Nat → Nat → Bool) (init : σ) (pre : Bool)
    (i : Nat) (hi : i < 2147483647) :
    time2 (iterBody D sig i (entry init pre)) = 2 * i + 2 := by
  rw [time2_of_small _ (by rw [(iter_fields D sig init pre i (by omega)).1]; omega),
    (iter_fields D sig init pre i (by omega)).1]

theorem iter_cycle2 (D : Vcpu_main σ) (sig : Nat → Nat → Bool) (init : σ) (pre : Bool)
    (i : Nat) (hi : i < 2147483647) :
    toInt32 (time2 (iterBody D sig i (entry init pre)) / 2) = ((i + 1 : Nat) : Int) := by
  rw [iter_time2 D sig init pre i hi, show (2 * i + 2) / 2 = i + 1 by omega,
    toInt32_of_small _ (by omega)]

theorem run_hwPart (D : Vcpu_main σ) (sig : Nat → Nat → Bool) (init : σ) (pre : Bool)
    (i : Nat) (hi : i < 2147483647) :
    hwPart (iterBody D sig i (entry init pre)) =
      [Event.eval 1 (if i = 0 then 1 else 0) 1 (2 * i), Event.dump (2 * i),
       Event.eval 0 (if i = 0 then 1 else 0) 1 (2 * i + 1), Event.dump (2 * i + 1)] := by
  obtain ⟨h1, -, h3, h4⟩ := iter_fields D sig init pre i (by omega)
  have h5 : incr64 (2 * i) = 2 * i + 1 := by unfold incr64; omega
  simp only [hwPart, h1, h3, h4, h5]

theorem run_resetPart (D : Vcpu_main σ) (sig : Nat → Nat → Bool) (init : σ) (pre : Bool)
    (i : Nat) (hi : i < 2147483647) :
    resetPart (iterBody D sig i (entry init pre)) =
      if i = 0 then [Event.fputs Sink.stdout Writer.printf RESET_FMT [Arg.int 0]] else [] := by
  obtain ⟨-, h2, -, h4⟩ := iter_fields D sig init pre i (by omega)
  simp only [resetPart, h2, h4]
  by_cases h : i = 0 <;> simp [h]

theorem run_haltPart (D : Vcpu_main σ) (sig : Nat → Nat → Bool) (init : σ) (pre : Bool)
    (i : Nat) (hi : i < 2147483647) :
    haltPart D (iterBody D sig i (entry init pre)) =
      if D.halt_o (iterBody D sig (i + 1) (entry init pre)).top ≠ 0 then
        [Event.fputs Sink.stdout Writer.printf HLT_FMT [Arg.int ((i + 1 : Nat) : Int)]]
      else [] := by
  simp only [haltPart, iter_cycle2 D sig init pre i hi, iter_top_succ]

theorem run_strobePart (D : Vcpu_main σ) (sig : Nat → Nat → Bool) (init : σ) (pre : Bool)
    (i : Nat) (hi : i < 2147483647) :
    strobePart D (iterBody D sig i (entry init pre)) =
      if D.out_strobe_o (iterBody D sig (i + 1) (entry init pre)).top ≠ 0 then
        [Event.fputs Sink.stdout Writer.printf OUT_FMT
          [Arg.int ((i + 1 : Nat) : Int),
           Arg.int ((D.out_value_o (iterBody D sig (i + 1) (entry init pre)).top % 256 : Nat)
             : Int),
           Arg.int ((D.out_value_o (iterBody D sig (i + 1) (entry init pre)).top % 256 : Nat)
             : Int)]]
      else [] := by
  simp only [strobePart, iter_cycle2 D sig init pre i hi, iter_top_succ]

theorem run_cutoffPart (D : Vcpu_main σ) (sig : Nat → Nat → Bool) (init : σ) (pre : Bool)
    (i : Nat) (hi : i < 2147483647) :
    cutoffPart (iterBody D sig i (entry init pre)) =
      if 12000 ≤ i + 1 then [Event.fputs Sink.stdout Writer.printf CUTOFF_FMT []] else [] := by
  simp only [cutoffPart, iter_time2 D sig init pre i hi, MAX_SIM_CYCLES,
    show (2 * i + 2) / 2 = i + 1 by omega, ge_iff_le]

/-- How `done` evolves over one cycle of a run. -/
theorem run_done_succ (D : Vcpu_main σ) (sig : Nat → Nat → Bool) (init : σ) (pre : Bool)
    (i : Nat) (hi : i < 2147483647) :
    (iterBody D sig (i + 1) (entry init pre)).done =
      (anyIrq (sig i) || (iterBody D sig i (entry init pre)).done
        || decide (D.halt_o (iterBody D sig (i + 1) (entry init pre)).top ≠ 0)
        || decide (12000 ≤ i + 1)) := by
  have h1 : (iterBody D sig (i + 1) (entry init pre)).done
      = (body D (sig i) (iterBody D sig i (entry init pre))).done := rfl
  rw [h1, body_done, iter_time2 D sig init pre i hi, ← iter_top_succ]
  simp only [MAX_SIM_CYCLES, show (2 * i + 2) / 2 = i + 1 by omega, ge_iff_le]

/-- A cycle after which `done` is still clear printed neither the halt line
nor the cutoff line, was not interrupted and started with `done` clear. -/
theorem quiet_cycle (D : Vcpu_main σ) (sig : Nat → Nat → Bool) (init : σ) (pre : Bool)
    (i : Nat) (hi : i < 2147483647)
    (h : (iterBody D sig (i + 1) (entry init pre)).done = false) :
    haltPart D (iterBody D sig i (entry init pre)) = [] ∧
    cutoffPart (iterBody D sig i (entry init pre)) = [] ∧
    anyIrq (sig i) = false ∧
    (iterBody D sig i (entry init pre)).done = false ∧
    D.halt_o (iterBody D sig (i + 1) (entry init pre)).top = 0 ∧ i + 1 < 12000 := by
  rw [run_done_succ D sig init pre i hi] at h
  simp only [Bool.or_eq_false_iff, decide_eq_false_iff_not, ne_eq, not_not, not_le] at h
  obtain ⟨⟨⟨h1, h2⟩, h3⟩, h4⟩ := h
  refine ⟨?_, ?_, h1, h2, h3, h4⟩
  · rw [run_haltPart D sig init pre i hi]; simp [h3]
  · rw [run_cutoffPart D sig init pre i hi]; simp; omega

theorem loopCond_done (D : Vcpu_main σ) (s : Sim σ) (h : loopCond D s = true) :
    s.done = false := by
  unfold loopCond at h
  cases hd : s.done <;> simp_all

/-! ## Filtering the calls of one cycle -/

theorem fmt_distinct :
    (RESET_FMT == HLT_FMT) = false ∧ (RESET_FMT == CUTOFF_FMT) = false ∧
    (HLT_FMT == RESET_FMT) = false ∧ (HLT_FMT == CUTOFF_FMT) = false ∧
    (OUT_FMT == RESET_FMT) = false ∧ (OUT_FMT == HLT_FMT) = false ∧
    (OUT_FMT == CUTOFF_FMT) = false ∧
    (CUTOFF_FMT == RESET_FMT) = false ∧ (CUTOFF_FMT == HLT_FMT) = false ∧
    (STARTED_FMT == RESET_FMT) = false ∧ (STARTED_FMT == HLT_FMT) = false ∧
    (STARTED_FMT == CUTOFF_FMT) = false ∧
    (ENDED_FMT == RESET_FMT) = false ∧ (ENDED_FMT == HLT_FMT) = false ∧
    (ENDED_FMT == CUTOFF_FMT) = false := by decide

theorem parts_HLT (D : Vcpu_main σ) (s : Sim σ) :
    (hwPart s ++ resetPart s ++ haltPart D s ++ strobePart D s ++ cutoffPart s).filter
      (isLine HLT_FMT) = haltPart D s := by
  obtain ⟨h1, h2, h3, h4, h5, h6, h7, h8, h9, -⟩ := fmt_distinct
  simp only [hwPart, resetPart, haltPart, strobePart, cutoffPart]
  split_ifs <;> simp [isLine, h1, h6, h9]

theorem parts_CUTOFF (D : Vcpu_main σ) (s : Sim σ) :
    (hwPart s ++ resetPart s ++ haltPart D s ++ strobePart D s ++ cutoffPart s).filter
      (isLine CUTOFF_FMT) = cutoffPart s := by
  obtain ⟨h1, h2, h3, h4, h5, h6, h7, h8, h9, -⟩ := fmt_distinct
  simp only [hwPart, resetPart, haltPart, strobePart, cutoffPart]
  split_ifs <;> simp [isLine, h2, h4, h7]

theorem parts_RESET (D : Vcpu_main σ) (s : Sim σ) :
    (hwPart s ++ resetPart s ++ haltPart D s ++ strobePart D s ++ cutoffPart s).filter
      (isLine RESET_FMT) = resetPart s := by
  obtain ⟨h1, h2, h3, h4, h5, h6, h7, h8, h9, -⟩ := fmt_distinct
  simp only [hwPart, resetPart, haltPart, strobePart, cutoffPart]
  split_ifs <;> simp [isLine, h3, h5, h8]

theorem parts_isHw (D : Vcpu_main σ) (s : Sim σ) :
    (hwPart s ++ resetPart s ++ haltPart D s ++ strobePart D s ++ cutoffPart s).filter isHw
      = hwPart s := by
  simp only [hwPart, resetPart, haltPart, strobePart, cutoffPart]
  split_ifs <;> simp [isHw, isEval, isDump]

theorem parts_isEval (D : Vcpu_main σ) (s : Sim σ) :
    (hwPart s ++ resetPart s ++ haltPart D s ++ strobePart D s ++ cutoffPart s).countP isEval
      = 2 := by
  simp only [hwPart, resetPart, haltPart, strobePart, cutoffPart]
  split_ifs <;> simp [isEval]

theorem parts_isDump (D : Vcpu_main σ) (s : Sim σ) :
    (hwPart s ++ resetPart s ++ haltPart D s ++ strobePart D s ++ cutoffPart s).countP isDump
      = 2 := by
  simp only [hwPart, resetPart, haltPart, strobePart, cutoffPart]
  split_ifs <;> simp [isDump]

theorem parts_dumpTimes (D : Vcpu_main σ) (s : Sim σ) :
    dumpTimes (hwPart s ++ resetPart s ++ haltPart D s ++ strobePart D s ++ cutoffPart s)
      = [s.main_time, incr64 s.main_time] := by
  simp only [hwPart, resetPart, haltPart, strobePart, cutoffPart, dumpTimes]
  split_ifs <;> simp

theorem parts_evalResets (D : Vcpu_main σ) (s : Sim σ) :
    evalResets (hwPart s ++ resetPart s ++ haltPart D s ++ strobePart D s ++ cutoffPart s)
      = [s.reset_i, s.reset_i] := by
  simp only [hwPart, resetPart, haltPart, strobePart, cutoffPart, evalResets]
  split_ifs <;> simp

/-! ## Filtering the trace of a run -/

theorem entry_trace (init : σ) (pre : Bool) :
    (entry init pre).trace =
      [Event.fputs Sink.stdout Writer.log_printf STARTED_FMT [],
       Event.fputs Sink.logfile Writer.log_printf STARTED_FMT [],
       Event.fputs Sink.logfile Writer.logonly_printf FST_FMT
         [Arg.str (LOGDIR ++ "cpu_vsim.fst")],
       Event.traceOpen (LOGDIR ++ "cpu_vsim.fst")] := by
  rw [(entry_fields init pre).2.2.2.2.2.2, startup_trace]

theorem run_evalCount (D : Vcpu_main σ) (sig : Nat → Nat → Bool) (init : σ) (pre : Bool)
    (m : Nat) : (iterBody D sig m (entry init pre)).trace.countP isEval = 2 * m := by
  induction m with
  | zero => simp [iterBody, entry_trace, isEval]
  | succ m ih => rw [iter_trace_succ, List.countP_append, ih, parts_isEval]; omega

theorem run_dumpCount (D : Vcpu_main σ) (sig : Nat → Nat → Bool) (init : σ) (pre : Bool)
    (m : Nat) : (iterBody D sig m (entry init pre)).trace.countP isDump = 2 * m := by
  induction m with
  | zero => simp [iterBody, entry_trace, isDump]
  | succ m ih => rw [iter_trace_succ, List.countP_append, ih, parts_isDump]; omega

theorem run_dumpTimes (D : Vcpu_main σ) (sig : Nat → Nat → Bool) (init : σ) (pre : Bool)
    (m : Nat) (hm : m < 2147483648) :
    dumpTimes (iterBody D sig m (entry init pre)).trace = List.range (2 * m) := by
  induction m with
  | zero => simp [iterBody, entry_trace, dumpTimes]
  | succ m ih =>
    have h1 := (iter_fields D sig init pre m (by omega)).1
    have h5 : incr64 (2 * m) = 2 * m + 1 := by unfold incr64; omega
    have hsplit : dumpTimes (iterBody D sig (m + 1) (entry init pre)).trace =
        dumpTimes (iterBody D sig m (entry init pre)).trace ++
          [2 * m, 2 * m + 1] := by
      rw [iter_trace_succ]
      unfold dumpTimes
      rw [List.filterMap_append]
      congr 1
      have := parts_dumpTimes D (iterBody D sig m (entry init pre))
      unfold dumpTimes at this
      rw [this, h1, h5]
    rw [hsplit, ih (by omega), show 2 * (m + 1) = 2 * m + 1 + 1 by omega, List.range_succ,
      List.range_succ]
    simp

theorem run_evalResets (D : Vcpu_main σ) (sig : Nat → Nat → Bool) (init : σ) (pre : Bool)
    (m : Nat) (hm : m < 2147483648) :
    evalResets (iterBody D sig m (entry init pre)).trace =
      (List.range (2 * m)).map (fun t => if t < 2 then 1 else 0) := by
  induction m with
  | zero => simp [iterBody, entry_trace, evalResets]
  | succ m ih =>
    have h4 := (iter_fields D sig init pre m (by omega)).2.2.2
    have hsplit : evalResets (iterBody D sig (m + 1) (entry init pre)).trace =
        evalResets (iterBody D sig m (entry init pre)).trace ++
          [if m = 0 then 1 else 0, if m = 0 then 1 else 0] := by
      rw [iter_trace_succ]
      unfold evalResets
      rw [List.filterMap_append]
      congr 1
      have := parts_evalResets D (iterBody D sig m (entry init pre))
      unfold evalResets at this
      rw [this, h4]
    rw [hsplit, ih (by omega), show 2 * (m + 1) = 2 * m + 1 + 1 by omega, List.range_succ,
      List.range_succ]
    by_cases h0 : m = 0
    · subst h0; simp
    · have h1 : ¬ (2 * m < 2) := by omega
      have h2 : ¬ (2 * m + 1 < 2) := by omega
      simp [h0, h1, h2]

theorem run_resetLines (D : Vcpu_main σ) (sig : Nat → Nat → Bool) (init : σ) (pre : Bool)
    (m : Nat) (hm : m < 2147483648) :
    (iterBody D sig m (entry init pre)).trace.filter (isLine RESET_FMT) =
      if m = 0 then [] else [Event.fputs Sink.stdout Writer.printf RESET_FMT [Arg.int 0]] := by
  induction m with
  | zero =>
    obtain ⟨-, -, -, -, -, -, -, -, -, h10, -⟩ := fmt_distinct
    simp [iterBody, entry_trace, isLine, h10]
  | succ m ih =>
    rw [iter_trace_succ, List.filter_append, ih (by omega), parts_RESET,
      run_resetPart D sig init pre m (by omega)]
    by_cases h0 : m = 0 <;> simp [h0]

/-- While `done` stays clear, neither the halt line nor the cutoff line has
been printed. -/
theorem run_quiet (D : Vcpu_main σ) (sig : Nat → Nat → Bool) (init : σ) (pre : Bool)
    (m : Nat) (hm : m < 2147483648)
    (h : (iterBody D sig m (entry init pre)).done = false) :
    (iterBody D sig m (entry init pre)).trace.filter (isLine HLT_FMT) = [] ∧
    (iterBody D sig m (entry init pre)).trace.filter (isLine CUTOFF_FMT) = [] := by
  induction m with
  | zero =>
    obtain ⟨-, -, -, -, -, -, -, -, -, -, h11, h12, -⟩ := fmt_distinct
    simp [iterBody, entry_trace, isLine, h11, h12]
  | succ m ih =>
    obtain ⟨q1, q2, -, q4, -, -⟩ := quiet_cycle D sig init pre m (by omega) h
    obtain ⟨i1, i2⟩ := ih (by omega) q4
    constructor
    · rw [iter_trace_succ, List.filter_append, parts_HLT, i1, q1]; rfl
    · rw [iter_trace_succ, List.filter_append, parts_CUTOFF, i2, q2]; rfl

/-! ## Runs without cancellation -/

theorem anyIrq_noSig (i : Nat) : anyIrq (noSig i) = false := by
  simp [anyIrq, noSig]

/-- With no cancellation, `done` stays clear as long as the model has not
asserted `halt_o` at a check and the cutoff has not been reached. -/
theorem done_false_upto (D : Vcpu_main σ) (sig : Nat → Nat → Bool) (init : σ) (n : Nat)
    (hn : n < 12000) (hirq : ∀ j, j < n → anyIrq (sig j) = false)
    (hh : ∀ j, 1 ≤ j → j ≤ n → D.halt_o (iterBody D sig j (entry init false)).top = 0) :
    (iterBody D sig n (entry init false)).done = false := by
  induction n with
  | zero => simpa [iterBody] using (entry_fields init false).2.2.2.2.2.1
  | succ n ih =>
    rw [run_done_succ D sig init false n (by omega),
      ih (by omega) (fun j hj => hirq j (by omega)) (fun j h1 h2 => hh j h1 (by omega)),
      hirq n (by omega), hh (n + 1) (by omega) (le_refl _)]
    simp; omega

theorem last_cycle_filter (D : Vcpu_main σ) (sig : Nat → Nat → Bool) (s : Sim σ) (m : Nat)
    (q : Event → Bool) :
    (iterBody D sig (m + 1) s).trace.filter q =
      (iterBody D sig m s).trace.filter q ++
        (hwPart (iterBody D sig m s) ++ resetPart (iterBody D sig m s) ++
          haltPart D (iterBody D sig m s) ++ strobePart D (iterBody D sig m s) ++
          cutoffPart (iterBody D sig m s)).filter q := by
  rw [iter_trace_succ, List.filter_append]

/-- C1 (cutoff determinism).  A model that asserts `halt_o` at none of the
halt checks of cycles 1 to 12000 and executes no `$finish`, run without
cancellation from `main_time = 0` and `done = false`: the loop returns after
exactly 12000 iterations (the loop condition holds before each of them),
with `main_time = 24000`, 24000 `eval` calls and `done` set; the cutoff line
is printed exactly once, by the 12000th iteration and by no earlier one, and
no halt line is printed. -/
theorem C1_cutoff_determinism (D : Vcpu_main σ) (init : σ) (fuel : Nat)
    (hfuel : 12000 ≤ fuel)
    (hhalt : ∀ j, 1 ≤ j → j ≤ 12000 →
      D.halt_o (iterBody D noSig j (entry init false)).top = 0)
    (hfin : ∀ j, j < 12000 →
      D.gotFinish (iterBody D noSig j (entry init false)).top = false) :
    ∃ s, simLoop D noSig fuel 0 (entry init false) = some s ∧
      s = iterBody D noSig 12000 (entry init false) ∧
      (∀ j, j < 12000 → loopCond D (iterBody D noSig j (entry init false)) = true) ∧
      s.main_time = 24000 ∧
      s.trace.countP isEval = 24000 ∧
      s.done = true ∧
      s.trace.filter (isLine CUTOFF_FMT) =
        [Event.fputs Sink.stdout Writer.printf CUTOFF_FMT []] ∧
      (∀ j, j < 12000 →
        (iterBody D noSig j (entry init false)).trace.filter (isLine CUTOFF_FMT) = []) ∧
      s.trace.filter (isLine HLT_FMT) = [] := by
  have hdone : ∀ j, j < 12000 → (iterBody D noSig j (entry init false)).done = false :=
    fun j hj => done_false_upto D noSig init j hj (fun i _ => anyIrq_noSig i)
      (fun i h1 h2 => hhalt i h1 (by omega))
  have hrun : ∀ j, j < 12000 → loopCond D (iterBody D noSig j (entry init false)) = true := by
    intro j hj
    simp [loopCond, hdone j hj, hfin j hj]
  have hstop : loopCond D (iterBody D noSig 12000 (entry init false)) = false := by
    simp [loopCond, done_at_cutoff]
  obtain ⟨q1, q2⟩ := run_quiet D noSig init false 11999 (by norm_num) (hdone 11999 (by norm_num))
  refine ⟨_, simLoop_of_cycles D noSig init false 12000 fuel hfuel hrun hstop, rfl, hrun,
    ?_, ?_, done_at_cutoff D noSig init false, ?_, ?_, ?_⟩
  · exact (iter_fields D noSig init false 12000 (by norm_num)).1
  · exact run_evalCount D noSig init false 12000
  · rw [last_cycle_filter D noSig _ 11999, parts_CUTOFF, q2,
      run_cutoffPart D noSig init false 11999 (by norm_num)]
    simp
  · intro j hj
    exact (run_quiet D noSig init false j (by omega) (hdone j hj)).2
  · rw [last_cycle_filter D noSig _ 11999, parts_HLT, q1,
      run_haltPart D noSig init false 11999 (by norm_num)]
    simp [hhalt 12000 (by norm_num) (le_refl _)]

/-- The statement of C1 at the idle model with fuel 12000. -/
theorem C1_cutoff_determinism_witness :
    ∃ s, simLoop idleDUT noSig 12000 0 (entry () false) = some s ∧
      s = iterBody idleDUT noSig 12000 (entry () false) ∧
      (∀ j, j < 12000 → loopCond idleDUT (iterBody idleDUT noSig j (entry () false)) = true) ∧
      s.main_time = 24000 ∧
      s.trace.countP isEval = 24000 ∧
      s.done = true ∧
      s.trace.filter (isLine CUTOFF_FMT) =
        [Event.fputs Sink.stdout Writer.printf CUTOFF_FMT []] ∧
      (∀ j, j < 12000 →
        (iterBody idleDUT noSig j (entry () false)).trace.filter (isLine CUTOFF_FMT) = []) ∧
      s.trace.filter (isLine HLT_FMT) = [] :=
  C1_cutoff_determinism idleDUT () 12000 (le_refl _) (fun _ _ _ => rfl) (fun _ _ => rfl)

/-- C2 (halt short-circuit).  Let `1 ≤ k < 12000` (the halt check of the
`n`-th iteration logs cycle number `n`, so the numbers start at 1).  If,
without cancellation, the model asserts `halt_o` at the halt check of cycle
`k`, at none of the earlier checks, and has not executed `$finish` before
(so that cycle `k` takes place), then the loop returns after exactly `k`
iterations: `done` is set, exactly `2 * k` `eval` calls were made (none for a
cycle `k + 1`), the halt line is printed exactly once, tagged `k`, and the
cutoff line is not printed. -/
theorem C2_halt_short_circuit (D : Vcpu_main σ) (init : σ) (k fuel : Nat)
    (hk1 : 1 ≤ k) (hk : k < 12000) (hfuel : k ≤ fuel)
    (hfirst : ∀ j, 1 ≤ j → j < k →
      D.halt_o (iterBody D noSig j (entry init false)).top = 0)
    (hhalt : D.halt_o (iterBody D noSig k (entry init false)).top ≠ 0)
    (hfin : ∀ j, j < k → D.gotFinish (iterBody D noSig j (entry init false)).top = false) :
    ∃ s, simLoop D noSig fuel 0 (entry init false) = some s ∧
      s = iterBody D noSig k (entry init false) ∧
      (∀ j, j < k → loopCond D (iterBody D noSig j (entry init false)) = true) ∧
      s.done = true ∧
      s.main_time = 2 * k ∧
      s.trace.countP isEval = 2 * k ∧
      s.trace.filter (isLine HLT_FMT) =
        [Event.fputs Sink.stdout Writer.printf HLT_FMT [Arg.int (k : Int)]] ∧
      s.trace.filter (isLine CUTOFF_FMT) = [] := by
  obtain ⟨m, rfl⟩ : ∃ m, k = m + 1 := ⟨k - 1, by omega⟩
  have hdone : ∀ j, j < m + 1 → (iterBody D noSig j (entry init false)).done = false :=
    fun j hj => done_false_upto D noSig init j (by omega) (fun i _ => anyIrq_noSig i)
      (fun i h1 h2 => hfirst i h1 (by omega))
  have hrun : ∀ j, j < m + 1 → loopCond D (iterBody D noSig j (entry init false)) = true := by
    intro j hj
    simp [loopCond, hdone j hj, hfin j hj]
  have hdk : (iterBody D noSig (m + 1) (entry init false)).done = true := by
    rw [run_done_succ D noSig init false m (by omega)]
    simp [hhalt]
  have hstop : loopCond D (iterBody D noSig (m + 1) (entry init false)) = false := by
    simp [loopCond, hdk]
  obtain ⟨q1, q2⟩ := run_quiet D noSig init false m (by omega) (hdone m (by omega))
  refine ⟨_, simLoop_of_cycles D noSig init false (m + 1) fuel hfuel hrun hstop, rfl, hrun,
    hdk, ?_, ?_, ?_, ?_⟩
  · exact (iter_fields D noSig init false (m + 1) (by omega)).1
  · exact run_evalCount D noSig init false (m + 1)
  · rw [last_cycle_filter D noSig _ m, parts_HLT, q1,
      run_haltPart D noSig init false m (by omega)]
    simp [hhalt]
  · rw [last_cycle_filter D noSig _ m, parts_CUTOFF, q2,
      run_cutoffPart D noSig init false m (by omega)]
    simp; omega

/-- The statement of C2 at a model that halts at cycle 3, with fuel 3. -/
theorem C2_halt_short_circuit_witness :
    (haltAt 3).halt_o (iterBody (haltAt 3) noSig 3 (entry 0 false)).top ≠ 0 ∧
    ∃ s, simLoop (haltAt 3) noSig 3 0 (entry 0 false) = some s ∧
      s = iterBody (haltAt 3) noSig 3 (entry 0 false) ∧
      (∀ j, j < 3 → loopCond (haltAt 3) (iterBody (haltAt 3) noSig j (entry 0 false)) = true) ∧
      s.done = true ∧
      s.main_time = 2 * 3 ∧
      s.trace.countP isEval = 2 * 3 ∧
      s.trace.filter (isLine HLT_FMT) =
        [Event.fputs Sink.stdout Writer.printf HLT_FMT [Arg.int ((3 : Nat) : Int)]] ∧
      s.trace.filter (isLine CUTOFF_FMT) = [] :=
  ⟨by decide,
   C2_halt_short_circuit (haltAt 3) 0 3 3 (by decide) (by decide) (le_refl _)
    (by intro j h1 h2; interval_cases j <;> decide) (by decide)
    (fun _ _ => rfl)⟩

/-! ## Every run -/

/-- Every run, whatever the model and the cancellation schedule, consists of
some `n ≤ 12000` iterations, and both the loop and the program return. -/
theorem run_exists (D : Vcpu_main σ) (sig : Nat → Nat → Bool) (init : σ) (pre : Bool)
    (fuel : Nat) (hfuel : 12000 ≤ fuel) :
    ∃ n, n ≤ 12000 ∧
      (∀ j, j < n → loopCond D (iterBody D sig j (entry init pre)) = true) ∧
      loopCond D (iterBody D sig n (entry init pre)) = false ∧
      simLoop D sig fuel 0 (entry init pre) = some (iterBody D sig n (entry init pre)) ∧
      simulate D init pre sig fuel = some (shutdown D (iterBody D sig n (entry init pre))) := by
  obtain ⟨n, hn, hrun, hstop⟩ := exists_cycles D sig init pre
  have hl := simLoop_of_cycles D sig init pre n fuel (by omega) hrun hstop
  exact ⟨n, hn, hrun, hstop, hl, by simp [simulate, hl]⟩

theorem shutdown_trace (D : Vcpu_main σ) (s : Sim σ) :
    (shutdown D s).trace = s.trace ++
      [Event.final, Event.close,
       Event.fputs Sink.stdout Writer.log_printf ENDED_FMT
         [Arg.int ((s.main_time / 2 : Nat) : Int)],
       Event.fputs Sink.logfile Writer.log_printf ENDED_FMT
         [Arg.int ((s.main_time / 2 : Nat) : Int)]] := by
  simp [shutdown, log_printf]

theorem stmt_keeps_done (f : Sim σ → Sim σ) (hf : Commutes f) (x : Sim σ)
    (hx : x.done = true) : (f x).done = true := by
  have hxe : ctrl_c x = x := by
    cases x
    simp only [ctrl_c] at hx ⊢
    simp_all
  rw [← hxe, hf x]
  rfl

theorem iter_done_mono (D : Vcpu_main σ) (sig : Nat → Nat → Bool) (s : Sim σ) (i d : Nat)
    (h : (iterBody D sig i s).done = true) : (iterBody D sig (i + d) s).done = true := by
  induction d with
  | zero => exact h
  | succ d ih =>
    show (body D (sig (i + d)) (iterBody D sig (i + d) s)).done = true
    rw [body_done, ih]
    simp

/-- C3 (reset window).  In every run (any model, any cancellation schedule)
the program returns; if the run has `n` cycles it makes `2 * n` `eval` calls,
the reset input seen by the `t`-th of them (counted from 0) is 1 when `t < 2`
and 0 otherwise, and when `n ≥ 1` the reset line is printed exactly once,
with cycle number 0, that is, as the text `"    0: <reset>\n"`. -/
theorem C3_reset_window (D : Vcpu_main σ) (init : σ) (pre : Bool) (sig : Nat → Nat → Bool)
    (fuel : Nat) (hfuel : 12000 ≤ fuel) :
    ∃ n s, n ≤ 12000 ∧ simulate D init pre sig fuel = some s ∧
      s.trace.countP isEval = 2 * n ∧
      evalResets s.trace = (List.range (2 * n)).map (fun t => if t < 2 then 1 else 0) ∧
      s.trace.filter (isLine RESET_FMT) =
        (if n = 0 then []
         else [Event.fputs Sink.stdout Writer.printf RESET_FMT [Arg.int 0]]) ∧
      Event.text (Event.fputs Sink.stdout Writer.printf RESET_FMT [Arg.int 0])
        = "    0: <reset>\n" := by
  obtain ⟨n, hn, -, -, -, hsim⟩ := run_exists D sig init pre fuel hfuel
  obtain ⟨-, -, -, -, -, -, -, -, -, -, -, -, h13, -⟩ := fmt_distinct
  refine ⟨n, _, hn, hsim, ?_, ?_, ?_, by decide⟩
  · rw [shutdown_trace, List.countP_append, run_evalCount]
    simp [isEval]
  · rw [shutdown_trace]
    unfold evalResets
    rw [List.filterMap_append]
    have := run_evalResets D sig init pre n (by omega)
    unfold evalResets at this
    rw [this]
    simp
  · rw [shutdown_trace, List.filter_append, run_resetLines D sig init pre n (by omega)]
    simp [isLine, h13]

/-- The statement of C3 at the idle model, without cancellation. -/
theorem C3_reset_window_witness :
    ∃ n s, n ≤ 12000 ∧ simulate idleDUT () false noSig 12000 = some s ∧
      s.trace.countP isEval = 2 * n ∧
      evalResets s.trace = (List.range (2 * n)).map (fun t => if t < 2 then 1 else 0) ∧
      s.trace.filter (isLine RESET_FMT) =
        (if n = 0 then []
         else [Event.fputs Sink.stdout Writer.printf RESET_FMT [Arg.int 0]]) ∧
      Event.text (Event.fputs Sink.stdout Writer.printf RESET_FMT [Arg.int 0])
        = "    0: <reset>\n" :=
  C3_reset_window idleDUT () false noSig 12000 (le_refl _)

/-- C5 (the cutoff bounds every run).  For every model and every cancellation
schedule the loop returns after some `n ≤ 12000` iterations, with
`main_time = 2 * n ≤ 24000` and `2 * n` `eval` calls; and `done`, once set, is
never cleared: not by a statement of the loop body, not by the handler, not
by a whole iteration, not from one iteration of the run to a later one. -/
theorem C5_cutoff_bounds_every_run (D : Vcpu_main σ) (init : σ) (pre : Bool)
    (sig : Nat → Nat → Bool) (fuel : Nat) (hfuel : 12000 ≤ fuel) :
    (∃ n s, n ≤ 12000 ∧ simLoop D sig fuel 0 (entry init pre) = some s ∧
      s = iterBody D sig n (entry init pre) ∧
      s.main_time = 2 * n ∧ s.main_time ≤ 24000 ∧ s.trace.countP isEval = 2 * n) ∧
    (∀ f ∈ bodyStmts D, ∀ x : Sim σ, x.done = true → (f x).done = true) ∧
    (∀ x : Sim σ, (ctrl_c x).done = true) ∧
    (∀ (irq : Nat → Bool) (x : Sim σ), x.done = true → (body D irq x).done = true) ∧
    (∀ i j, i ≤ j → (iterBody D sig i (entry init pre)).done = true →
      (iterBody D sig j (entry init pre)).done = true) := by
  obtain ⟨n, hn, -, -, hl, -⟩ := run_exists D sig init pre fuel hfuel
  have hmt := (iter_fields D sig init pre n (by omega)).1
  refine ⟨⟨n, _, hn, hl, rfl, hmt, by omega, run_evalCount D sig init pre n⟩, ?_, ?_, ?_, ?_⟩
  · intro f hf x hx
    exact stmt_keeps_done f (bodyStmts_commute D f hf) x hx
  · intro x; rfl
  · intro irq x hx
    rw [body_done, hx]; simp
  · intro i j hij h
    obtain ⟨d, rfl⟩ : ∃ d, j = i + d := ⟨j - i, by omega⟩
    exact iter_done_mono D sig _ i d h

/-- The statement of C5 at the idle model, without cancellation. -/
theorem C5_cutoff_bounds_every_run_witness :
    (∃ n s, n ≤ 12000 ∧ simLoop idleDUT noSig 12000 0 (entry () false) = some s ∧
      s = iterBody idleDUT noSig n (entry () false) ∧
      s.main_time = 2 * n ∧ s.main_time ≤ 24000 ∧ s.trace.countP isEval = 2 * n) ∧
    (∀ f ∈ bodyStmts idleDUT, ∀ x : Sim Unit, x.done = true → (f x).done = true) ∧
    (∀ x : Sim Unit, (ctrl_c x).done = true) ∧
    (∀ (irq : Nat → Bool) (x : Sim Unit), x.done = true → (body idleDUT irq x).done = true) ∧
    (∀ i j, i ≤ j → (iterBody idleDUT noSig i (entry () false)).done = true →
      (iterBody idleDUT noSig j (entry () false)).done = true) :=
  C5_cutoff_bounds_every_run idleDUT () false noSig 12000 (le_refl _)

theorem parts_no_cleanup (D : Vcpu_main σ) (s : Sim σ) :
    Event.final ∉ hwPart s ++ resetPart s ++ haltPart D s ++ strobePart D s ++ cutoffPart s ∧
    Event.close ∉ hwPart s ++ resetPart s ++ haltPart D s ++ strobePart D s ++ cutoffPart s := by
  simp only [hwPart, resetPart, haltPart, strobePart, cutoffPart]
  split_ifs <;> simp

theorem run_no_cleanup (D : Vcpu_main σ) (sig : Nat → Nat → Bool) (init : σ) (pre : Bool)
    (m : Nat) :
    Event.final ∉ (iterBody D sig m (entry init pre)).trace ∧
    Event.close ∉ (iterBody D sig m (entry init pre)).trace := by
  induction m with
  | zero => simp [iterBody, entry_trace]
  | succ m ih =>
    obtain ⟨p1, p2⟩ := parts_no_cleanup D (iterBody D sig m (entry init pre))
    rw [iter_trace_succ]
    exact ⟨fun h => (List.mem_append.mp h).elim ih.1 p1,
      fun h => (List.mem_append.mp h).elim ih.2 p2⟩

/-- C6 (resource cleanup on all paths).  For every model and every
cancellation schedule, a cancellation before the first test of the loop
condition included, the loop returns and the program returns with exit
status 0; the trace of the program is the trace at loop exit followed by
`top->final()`, then `tfp->close()`, then the two writes of the closing
banner.  The trace at loop exit contains neither call, so each is made
exactly once, after the loop, and no `eval` or `dump` follows them. -/
theorem C6_cleanup_exactly_once (D : Vcpu_main σ) (init : σ) (pre : Bool)
    (sig : Nat → Nat → Bool) (fuel : Nat) (hfuel : 12000 ≤ fuel) :
    ∃ sl s, simLoop D sig fuel 0 (entry init pre) = some sl ∧
      simulate D init pre sig fuel = some s ∧
      main D init true pre sig fuel = some (0, s.trace) ∧
      s.trace = sl.trace ++
        [Event.final, Event.close,
         Event.fputs Sink.stdout Writer.log_printf ENDED_FMT
           [Arg.int ((sl.main_time / 2 : Nat) : Int)],
         Event.fputs Sink.logfile Writer.log_printf ENDED_FMT
           [Arg.int ((sl.main_time / 2 : Nat) : Int)]] ∧
      Event.final ∉ sl.trace ∧ Event.close ∉ sl.trace ∧
      s.trace.count Event.final = 1 ∧ s.trace.count Event.close = 1 := by
  obtain ⟨n, -, -, -, hl, hsim⟩ := run_exists D sig init pre fuel hfuel
  obtain ⟨h1, h2⟩ := run_no_cleanup D sig init pre n
  refine ⟨_, _, hl, hsim, by simp [main, hsim], shutdown_trace D _, h1, h2, ?_, ?_⟩
  · rw [shutdown_trace, List.count_append, List.count_eq_zero_of_not_mem h1]
    simp [List.count_cons]
  · rw [shutdown_trace, List.count_append, List.count_eq_zero_of_not_mem h2]
    simp [List.count_cons]

/-- The statement of C6 at a run cancelled before the first cycle. -/
theorem C6_cleanup_exactly_once_witness :
    ∃ sl s, simLoop idleDUT noSig 12000 0 (entry () true) = some sl ∧
      simulate idleDUT () true noSig 12000 = some s ∧
      main idleDUT () true true noSig 12000 = some (0, s.trace) ∧
      s.trace = sl.trace ++
        [Event.final, Event.close,
         Event.fputs Sink.stdout Writer.log_printf ENDED_FMT
           [Arg.int ((sl.main_time / 2 : Nat) : Int)],
         Event.fputs Sink.logfile Writer.log_printf ENDED_FMT
           [Arg.int ((sl.main_time / 2 : Nat) : Int)]] ∧
      Event.final ∉ sl.trace ∧ Event.close ∉ sl.trace ∧
      s.trace.count Event.final = 1 ∧ s.trace.count Event.close = 1 :=
  C6_cleanup_exactly_once idleDUT () true noSig 12000 (le_refl _)

theorem anyIrq_of_point (irq : Nat → Bool) (p : Nat) (hp : p ≤ 14) (h : irq p = true) :
    anyIrq irq = true := by
  unfold anyIrq
  rw [List.any_eq_true]
  exact ⟨p, List.mem_range.mpr (by omega), h⟩

theorem cycleLines_not_hw (D : Vcpu_main σ) (s : Sim σ) :
    ∀ e ∈ cycleLines D s, isHw e = false := by
  simp only [cycleLines, resetPart, haltPart, strobePart, cutoffPart]
  split_ifs <;> simp [isHw, isEval, isDump]

/-- C7 (cancellation granularity).  Suppose the run reaches iteration `k`
(the loop condition holds before each of the iterations `0, …, k`) and
SIGINT is delivered at one of the fifteen points `p ≤ 14` of that iteration:
before, between or after its statements.  Then the loop returns after
exactly `k + 1` iterations: iteration `k` is completed (its two `eval` calls,
each directly followed by its `dump`, then only text lines), `main_time` has
advanced by 2 and is even, `done` is set, and no further iteration is
started.  The handler changes no variable other than `done`. -/
theorem C7_cancellation_granularity (D : Vcpu_main σ) (init : σ) (pre : Bool)
    (sig : Nat → Nat → Bool) (k p fuel : Nat) (hp : p ≤ 14) (hsig : sig k p = true)
    (hreach : ∀ j, j ≤ k → loopCond D (iterBody D sig j (entry init pre)) = true)
    (hfuel : k + 1 ≤ fuel) :
    simLoop D sig fuel 0 (entry init pre) = some (iterBody D sig (k + 1) (entry init pre)) ∧
    (iterBody D sig (k + 1) (entry init pre)).done = true ∧
    (iterBody D sig (k + 1) (entry init pre)).main_time =
      (iterBody D sig k (entry init pre)).main_time + 2 ∧
    (iterBody D sig (k + 1) (entry init pre)).main_time % 2 = 0 ∧
    (iterBody D sig (k + 1) (entry init pre)).trace =
      (iterBody D sig k (entry init pre)).trace ++
        ([Event.eval 1 (if k = 0 then 1 else 0) 1 (2 * k), Event.dump (2 * k),
          Event.eval 0 (if k = 0 then 1 else 0) 1 (2 * k + 1), Event.dump (2 * k + 1)] ++
         cycleLines D (iterBody D sig k (entry init pre))) ∧
    (∀ e ∈ cycleLines D (iterBody D sig k (entry init pre)), isHw e = false) ∧
    (∀ x : Sim σ, (ctrl_c x).top = x.top ∧ (ctrl_c x).reset_i = x.reset_i ∧
      (ctrl_c x).clk_en_i = x.clk_en_i ∧ (ctrl_c x).clk = x.clk ∧
      (ctrl_c x).main_time = x.main_time ∧ (ctrl_c x).cycle = x.cycle ∧
      (ctrl_c x).trace = x.trace ∧ (ctrl_c x).done = true) := by
  have hk : k < 12000 := by
    by_contra hge
    have h1 := hreach 12000 (by omega)
    simp [loopCond, done_at_cutoff] at h1
  have hdone : (iterBody D sig (k + 1) (entry init pre)).done = true := by
    rw [run_done_succ D sig init pre k (by omega), anyIrq_of_point (sig k) p hp hsig]
    simp
  have hstop : loopCond D (iterBody D sig (k + 1) (entry init pre)) = false := by
    simp [loopCond, hdone]
  have hm0 := (iter_fields D sig init pre k (by omega)).1
  have hm1 := (iter_fields D sig init pre (k + 1) (by omega)).1
  refine ⟨simLoop_of_cycles D sig init pre (k + 1) fuel hfuel
    (fun j hj => hreach j (by omega)) hstop, hdone, by omega, by omega, ?_,
    cycleLines_not_hw D _, fun x => ⟨rfl, rfl, rfl, rfl, rfl, rfl, rfl, rfl⟩⟩
  rw [iter_trace_succ, run_hwPart D sig init pre k (by omega)]
  simp [cycleLines, List.append_assoc]

/-- The statement of C7 for a SIGINT delivered between the two `eval` calls
(point 4) of iteration 2 of a run of the idle model. -/
theorem C7_cancellation_granularity_witness :
    simLoop idleDUT (fun i p => decide (i = 2 ∧ p = 4)) 3 0 (entry () false)
      = some (iterBody idleDUT (fun i p => decide (i = 2 ∧ p = 4)) (2 + 1) (entry () false)) ∧
    (iterBody idleDUT (fun i p => decide (i = 2 ∧ p = 4)) (2 + 1) (entry () false)).done
      = true ∧
    (iterBody idleDUT (fun i p => decide (i = 2 ∧ p = 4)) (2 + 1) (entry () false)).main_time
      = 6 :=
  have h := C7_cancellation_granularity idleDUT () false (fun i p => decide (i = 2 ∧ p = 4))
    2 4 3 (by decide) (by decide) (by intro j hj; interval_cases j <;> decide) (le_refl _)
  ⟨h.1, h.2.1, by decide⟩

/-- The whole trace of the first `n` iterations, cycle by cycle. -/
theorem run_trace (D : Vcpu_main σ) (sig : Nat → Nat → Bool) (init : σ) (pre : Bool)
    (n : Nat) (hn : n < 2147483648) :
    (iterBody D sig n (entry init pre)).trace =
      (entry init pre).trace ++
        (List.range n).flatMap (fun i =>
          [Event.eval 1 (if i = 0 then 1 else 0) 1 (2 * i), Event.dump (2 * i),
           Event.eval 0 (if i = 0 then 1 else 0) 1 (2 * i + 1), Event.dump (2 * i + 1)] ++
          cycleLines D (iterBody D sig i (entry init pre))) := by
  induction n with
  | zero => simp [iterBody]
  | succ n ih =>
    rw [iter_trace_succ, ih (by omega), run_hwPart D sig init pre n (by omega),
      List.range_succ, List.flatMap_append, List.flatMap_singleton]
    simp [cycleLines, List.append_assoc]

/-- The calls that reach the model or the waveform stream, in order. -/
theorem run_hwTrace (D : Vcpu_main σ) (sig : Nat → Nat → Bool) (init : σ) (pre : Bool)
    (n : Nat) (hn : n < 2147483648) :
    (iterBody D sig n (entry init pre)).trace.filter isHw =
      (List.range (2 * n)).flatMap (fun t =>
        [Event.eval ((t + 1) % 2) (if t < 2 then 1 else 0) 1 t, Event.dump t]) := by
  induction n with
  | zero => simp [iterBody, entry_trace, isHw, isEval, isDump]
  | succ n ih =>
    rw [last_cycle_filter, ih (by omega), parts_isHw, run_hwPart D sig init pre n (by omega),
      show 2 * (n + 1) = 2 * n + 1 + 1 by omega, List.range_succ, List.range_succ,
      List.flatMap_append, List.flatMap_append, List.flatMap_singleton,
      List.flatMap_singleton]
    have e1 : (2 * n + 1) % 2 = 1 := by omega
    have e2 : (2 * n + 1 + 1) % 2 = 0 := by omega
    by_cases h0 : n = 0
    · subst h0; simp
    · have h1 : ¬ (2 * n < 2) := by omega
      have h2 : ¬ (2 * n + 1 < 2) := by omega
      simp [h0, h1, h2, e1, e2]

/-- C9 (trace ordering).  Tracing is compiled in.  In every run the program
returns; if the run has `n` cycles it makes exactly `2 * n` `eval` calls and
`2 * n` `dump` calls, the dump timestamps are `0, 1, …, 2 * n - 1` in this
order, and the trace consists of the start-up events, then for each cycle
`i` the four calls `eval, dump (2 * i), eval, dump (2 * i + 1)` followed by
text lines only, then the shutdown events: each `eval` is directly followed
by the `dump` whose timestamp is the value `sc_time_stamp` had during that
`eval` (the last component of the `eval` event), namely `main_time`. -/
theorem C9_trace_ordering (D : Vcpu_main σ) (init : σ) (pre : Bool)
    (sig : Nat → Nat → Bool) (fuel : Nat) (hfuel : 12000 ≤ fuel) :
    ∃ n s, n ≤ 12000 ∧ simulate D init pre sig fuel = some s ∧
      s.trace.countP isEval = 2 * n ∧ s.trace.countP isDump = 2 * n ∧
      dumpTimes s.trace = List.range (2 * n) ∧
      s.trace.filter isHw =
        (List.range (2 * n)).flatMap (fun t =>
          [Event.eval ((t + 1) % 2) (if t < 2 then 1 else 0) 1 t, Event.dump t]) ∧
      (∃ lines : Nat → List Event, (∀ i e, e ∈ lines i → isHw e = false) ∧
        s.trace =
          (entry init pre).trace ++
            (List.range n).flatMap (fun i =>
              [Event.eval 1 (if i = 0 then 1 else 0) 1 (2 * i), Event.dump (2 * i),
               Event.eval 0 (if i = 0 then 1 else 0) 1 (2 * i + 1),
               Event.dump (2 * i + 1)] ++ lines i) ++
            [Event.final, Event.close,
             Event.fputs Sink.stdout Writer.log_printf ENDED_FMT [Arg.int (n : Int)],
             Event.fputs Sink.logfile Writer.log_printf ENDED_FMT [Arg.int (n : Int)]]) ∧
      (∀ x : Sim σ, sc_time_stamp x = x.main_time ∧
        (top_eval D x).trace =
          x.trace ++ [Event.eval x.clk x.reset_i x.clk_en_i (sc_time_stamp x)] ∧
        (tfp_dump x).trace = x.trace ++ [Event.dump x.main_time]) := by
  obtain ⟨n, hn, -, -, -, hsim⟩ := run_exists D sig init pre fuel hfuel
  have hmt := (iter_fields D sig init pre n (by omega)).1
  refine ⟨n, _, hn, hsim, ?_, ?_, ?_, ?_, ?_, fun x => ⟨rfl, rfl, rfl⟩⟩
  · rw [shutdown_trace, List.countP_append, run_evalCount]
    simp [isEval]
  · rw [shutdown_trace, List.countP_append, run_dumpCount]
    simp [isDump]
  · rw [shutdown_trace]
    unfold dumpTimes
    rw [List.filterMap_append]
    have := run_dumpTimes D sig init pre n (by omega)
    unfold dumpTimes at this
    rw [this]
    simp
  · rw [shutdown_trace, List.filter_append, run_hwTrace D sig init pre n (by omega)]
    simp [isHw, isEval, isDump]
  · refine ⟨fun i => cycleLines D (iterBody D sig i (entry init pre)),
      fun i e he => cycleLines_not_hw D _ e he, ?_⟩
    rw [shutdown_trace, run_trace D sig init pre n (by omega), hmt,
      show 2 * n / 2 = n by omega]

/-- The statement of C9 at the idle model, without cancellation. -/
theorem C9_trace_ordering_witness :
    ∃ n s, n ≤ 12000 ∧ simulate idleDUT () false noSig 12000 = some s ∧
      s.trace.countP isEval = 2 * n ∧ s.trace.countP isDump = 2 * n ∧
      dumpTimes s.trace = List.range (2 * n) :=
  have ⟨n, s, h1, h2, h3, h4, h5, _⟩ :=
    C9_trace_ordering idleDUT () false noSig 12000 (le_refl _)
  ⟨n, s, h1, h2, h3, h4, h5⟩

/-- The halt line and the cutoff line of the run after a cycle that started
with `done` clear. -/
theorem last_lines (D : Vcpu_main σ) (sig : Nat → Nat → Bool) (init : σ) (pre : Bool)
    (m : Nat) (hm : m < 12000)
    (hd : (iterBody D sig m (entry init pre)).done = false) :
    (iterBody D sig (m + 1) (entry init pre)).trace.filter (isLine HLT_FMT) =
      (if D.halt_o (iterBody D sig (m + 1) (entry init pre)).top ≠ 0 then
        [Event.fputs Sink.stdout Writer.printf HLT_FMT [Arg.int ((m + 1 : Nat) : Int)]]
       else []) ∧
    (iterBody D sig (m + 1) (entry init pre)).trace.filter (isLine CUTOFF_FMT) =
      (if 12000 ≤ m + 1 then [Event.fputs Sink.stdout Writer.printf CUTOFF_FMT []]
       else []) := by
  obtain ⟨q1, q2⟩ := run_quiet D sig init pre m (by omega) hd
  constructor
  · rw [last_cycle_filter D sig _ m, parts_HLT, q1, run_haltPart D sig init pre m (by omega)]
    rfl
  · rw [last_cycle_filter D sig _ m, parts_CUTOFF, q2,
      run_cutoffPart D sig init pre m (by omega)]
    rfl

theorem haltAt_top (k : Nat) (sig : Nat → Nat → Bool) (pre : Bool) (j : Nat) :
    (iterBody (haltAt k) sig j (entry 0 pre)).top = 2 * j := by
  induction j with
  | zero => simpa [iterBody] using (entry_fields (0 : Nat) pre).1
  | succ j ih =>
    rw [iter_top_succ]
    simp only [top2, top1, haltAt] at ih ⊢
    rw [ih]
    omega

/-- Counterexample to C8 as stated: a model that asserts `halt_o` for the
first time at the halt check of cycle 12000, run without cancellation.  The
loop returns after 12000 iterations and that run prints both the halt line
(tagged 12000) and the cutoff line. -/
theorem C8_both_reasons_counterexample :
    ∃ s, simLoop (haltAt 12000) noSig 12000 0 (entry 0 false) = some s ∧
      s.trace.filter (isLine HLT_FMT) =
        [Event.fputs Sink.stdout Writer.printf HLT_FMT [Arg.int 12000]] ∧
      s.trace.filter (isLine CUTOFF_FMT) =
        [Event.fputs Sink.stdout Writer.printf CUTOFF_FMT []] := by
  have hh : ∀ j, 1 ≤ j → j < 12000 →
      (haltAt 12000).halt_o (iterBody (haltAt 12000) noSig j (entry 0 false)).top = 0 := by
    intro j _ h2
    rw [haltAt_top]
    have : ¬ (2 * j = 2 * 12000) := by omega
    simp [haltAt, this]
  have hdone : ∀ j, j < 12000 →
      (iterBody (haltAt 12000) noSig j (entry 0 false)).done = false :=
    fun j hj => done_false_upto (haltAt 12000) noSig 0 j hj (fun i _ => anyIrq_noSig i)
      (fun i h1 h2 => hh i h1 (by omega))
  have hrun : ∀ j, j < 12000 →
      loopCond (haltAt 12000) (iterBody (haltAt 12000) noSig j (entry 0 false)) = true := by
    intro j hj
    have hg : (haltAt 12000).gotFinish
        (iterBody (haltAt 12000) noSig j (entry 0 false)).top = false := rfl
    simp [loopCond, hdone j hj, hg]
  have hstop : loopCond (haltAt 12000)
      (iterBody (haltAt 12000) noSig 12000 (entry 0 false)) = false := by
    simp [loopCond, done_at_cutoff]
  obtain ⟨l1, l2⟩ := last_lines (haltAt 12000) noSig 0 false 11999 (by norm_num)
    (hdone 11999 (by norm_num))
  refine ⟨_, simLoop_of_cycles (haltAt 12000) noSig 0 false 12000 12000 (le_refl _) hrun hstop,
    ?_, ?_⟩
  · rw [l1, haltAt_top]
    simp [haltAt]
  · rw [l2]
    simp

/-- C8 as amended.  In every run the loop returns after some `n ≤ 12000`
iterations.  Before the last of them `done` is clear and neither the halt
line nor the cutoff line has been printed; at loop exit the halt line has
been printed once, tagged `n`, exactly when `n ≥ 1` and `halt_o` is asserted
at the halt check of cycle `n`, and not at all otherwise; the cutoff line
has been printed once exactly when `n = 12000`, and not at all otherwise.
Hence a run that ends before cycle 12000 never prints the cutoff line. -/
theorem C8_single_reason_amended (D : Vcpu_main σ) (init : σ) (pre : Bool)
    (sig : Nat → Nat → Bool) (fuel : Nat) (hfuel : 12000 ≤ fuel) :
    ∃ n s, n ≤ 12000 ∧ simLoop D sig fuel 0 (entry init pre) = some s ∧
      s = iterBody D sig n (entry init pre) ∧
      (∀ j, j < n →
        (iterBody D sig j (entry init pre)).done = false ∧
        (iterBody D sig j (entry init pre)).trace.filter (isLine HLT_FMT) = [] ∧
        (iterBody D sig j (entry init pre)).trace.filter (isLine CUTOFF_FMT) = []) ∧
      s.trace.filter (isLine HLT_FMT) =
        (if 1 ≤ n ∧ D.halt_o s.top ≠ 0 then
          [Event.fputs Sink.stdout Writer.printf HLT_FMT [Arg.int (n : Int)]]
         else []) ∧
      s.trace.filter (isLine CUTOFF_FMT) =
        (if n = 12000 then [Event.fputs Sink.stdout Writer.printf CUTOFF_FMT []] else []) ∧
      (n < 12000 → s.trace.filter (isLine CUTOFF_FMT) = []) := by
  obtain ⟨n, hn, hrun, -, hl, -⟩ := run_exists D sig init pre fuel hfuel
  have hdone : ∀ j, j < n → (iterBody D sig j (entry init pre)).done = false :=
    fun j hj => loopCond_done D _ (hrun j hj)
  have hcut : (iterBody D sig n (entry init pre)).trace.filter (isLine CUTOFF_FMT) =
      (if n = 12000 then [Event.fputs Sink.stdout Writer.printf CUTOFF_FMT []] else []) := by
    cases n with
    | zero =>
      obtain ⟨-, -, -, -, -, -, -, -, -, -, -, h12, -⟩ := fmt_distinct
      simp [iterBody, entry_trace, isLine, h12]
    | succ m =>
      rw [(last_lines D sig init pre m (by omega) (hdone m (by omega))).2]
      by_cases h : m + 1 = 12000
      · simp [h]
      · have : ¬ (12000 ≤ m + 1) := by omega
        simp [h, this]
  refine ⟨n, _, hn, hl, rfl, ?_, ?_, hcut, ?_⟩
  · intro j hj
    obtain ⟨q1, q2⟩ := run_quiet D sig init pre j (by omega) (hdone j hj)
    exact ⟨hdone j hj, q1, q2⟩
  · cases n with
    | zero =>
      obtain ⟨-, -, -, -, -, -, -, -, -, -, h11, -⟩ := fmt_distinct
      simp [iterBody, entry_trace, isLine, h11]
    | succ m =>
      rw [(last_lines D sig init pre m (by omega) (hdone m (by omega))).1]
      by_cases h : D.halt_o (iterBody D sig (m + 1) (entry init pre)).top = 0 <;> simp [h]
  · intro hlt
    rw [hcut]
    have : ¬ (n = 12000) := by omega
    simp [this]

/-- The amended statement of C8 at the model that halts at cycle 12000. -/
theorem C8_single_reason_amended_witness :
    ∃ n s, n ≤ 12000 ∧ simLoop (haltAt 12000) noSig 12000 0 (entry 0 false) = some s ∧
      s = iterBody (haltAt 12000) noSig n (entry 0 false) ∧
      s.trace.filter (isLine CUTOFF_FMT) =
        (if n = 12000 then [Event.fputs Sink.stdout Writer.printf CUTOFF_FMT []] else []) :=
  have ⟨n, s, h1, h2, h3, _, _, h6, _⟩ :=
    C8_single_reason_amended (haltAt 12000) 0 false noSig 12000 (le_refl _)
  ⟨n, s, h1, h2, h3, h6⟩

theorem fmt_distinct_out :
    (RESET_FMT == OUT_FMT) = false ∧ (CUTOFF_FMT == OUT_FMT) = false ∧
    (HLT_FMT == OUT_FMT) = false := by decide

theorem other_parts_not_events (s : Sim σ) :
    ∀ e ∈ hwPart s ++ resetPart s ++ cutoffPart s,
      isLine HLT_FMT e = false ∧ isLine OUT_FMT e = false := by
  obtain ⟨h1, h2, -, h4, -⟩ := fmt_distinct
  obtain ⟨o1, o2, -⟩ := fmt_distinct_out
  simp only [hwPart, resetPart, cutoffPart]
  split_ifs <;> simp [isLine, h1, h2, h4, o1, o2] <;> decide

/-- C10 (event lines per cycle).  For every iteration, from any state and
under any interruption: the `cycle` variable becomes `main_time / 2`; the
iteration appends to the trace its four model calls, the reset line if
reset is asserted, then the halt line tagged with the new cycle number if
and only if `halt_o` is asserted, then the output line tagged with the new
cycle number and carrying `out_value_o` modulo 256 twice if and only if
`out_strobe_o` is asserted, then the cutoff line if the cutoff is reached;
none of the other events is a halt or output line, so each of the two
appears at most once per cycle, halt line first.  The output line renders
as the cycle right-justified in width 5, then `: === OUT: 0x`, the value in
lower-case hexadecimal zero-padded to width 2 (exactly two digits for an
8-bit value), then the value in decimal between parentheses.  In the run of
a model that strobes `0x2A` at cycle 7 and halts at cycle 8 the console
shows `"    7: === OUT: 0x2a (42)\n"` exactly once. -/
theorem C10_event_lines_per_cycle (D : Vcpu_main σ) (irq : Nat → Bool) (s : Sim σ) :
    (body D irq s).cycle = toInt32 ((body D irq s).main_time / 2) ∧
    (body D irq s).trace = s.trace ++
      (hwPart s ++ resetPart s ++
        (if D.halt_o (body D irq s).top ≠ 0 then
          [Event.fputs Sink.stdout Writer.printf HLT_FMT [Arg.int (body D irq s).cycle]]
         else []) ++
        (if D.out_strobe_o (body D irq s).top ≠ 0 then
          [Event.fputs Sink.stdout Writer.printf OUT_FMT
            [Arg.int (body D irq s).cycle,
             Arg.int ((D.out_value_o (body D irq s).top % 256 : Nat) : Int),
             Arg.int ((D.out_value_o (body D irq s).top % 256 : Nat) : Int)]]
         else []) ++
        cutoffPart s) ∧
    (∀ e ∈ hwPart s ++ resetPart s ++ cutoffPart s,
      isLine HLT_FMT e = false ∧ isLine OUT_FMT e = false) ∧
    (∀ c : Int, Event.text (Event.fputs Sink.stdout Writer.printf HLT_FMT [Arg.int c]) =
      String.mk (padLeft ' ' 5 (decimal c) ++ ": === HLT: CPU halted.\n".toList)) ∧
    (∀ (c : Int) (v : Nat),
      Event.text (Event.fputs Sink.stdout Writer.printf OUT_FMT
        [Arg.int c, Arg.int (v : Int), Arg.int (v : Int)]) =
      String.mk (padLeft ' ' 5 (decimal c) ++ ": === OUT: 0x".toList ++
        padLeft '0' 2 (hex (v : Int)) ++ " (".toList ++ decimal (v : Int) ++ ")\n".toList)) ∧
    (∀ v : Fin 256, (padLeft '0' 2 (hex ((v.val : Nat) : Int))).length = 2) ∧
    (simulate strobeAt7 0 false noSig 12000).map (fun r => consoleLines r.trace) =
      some ["\nSimulation started\n", "    0: <reset>\n", "    7: === OUT: 0x2a (42)\n",
            "    8: === HLT: CPU halted.\n", "Simulation ended after 8 clock ticks\n"] := by
  refine ⟨?_, ?_, other_parts_not_events s, ?_, ?_, ?_, ?_⟩
  · rw [body_cycle, body_main_time]
  · rw [body_trace, body_top, body_cycle]
    rfl
  · intro c
    simp [Event.text, sprintf, HLT_FMT, vformat]
  · intro c v
    simp [Event.text, sprintf, OUT_FMT, vformat]
  · set_option maxRecDepth 1000000 in decide
  · set_option maxRecDepth 100000 in decide

/-- C4, evaluated on a run of one cycle (the model asserts `halt_o` at the
first halt check, no cancellation): the console receives four lines, two of
them event lines; the log file receives the two banners and the waveform
announcement, and no event line.  Once the line written by `logonly_printf`
is removed, the file holds two lines where the console holds four. -/
theorem C4_event_lines_bypass_log_file :
    (simulate (haltAt 1) 0 false noSig 12000).map (fun r => consoleLines r.trace) =
      some ["\nSimulation started\n", "    0: <reset>\n", "    1: === HLT: CPU halted.\n",
            "Simulation ended after 1 clock ticks\n"] ∧
    (simulate (haltAt 1) 0 false noSig 12000).map (fun r => fileLines r.trace) =
      some ["\nSimulation started\n",
            "Writing FST waveform file to \"logs/cpu_vsim.fst\"...\n",
            "Simulation ended after 1 clock ticks\n"] ∧
    (simulate (haltAt 1) 0 false noSig 12000).map (fun r => sharedFileLines r.trace) =
      some ["\nSimulation started\n", "Simulation ended after 1 clock ticks\n"] := by
  decide

end CpuVsim
